import Mathlib

/-! goauth: Basic-Auth encoding, password-grant form building and token inflation.

A shallow embedding of the pure and state-passing parts of the goauth helper
library (`basicauth.go`, `credentials/credentials_password.go`,
`ringcentral/ringcentral_client.go`) together with models of the Go standard
library functions they call, followed by the properties proved about them.

Conventions

* A Go `string` is a sequence of bytes: `GoString = List (Fin 256)`.
* A Go `(T, error)` result is a pair whose second component is `Option GoError`
  (`none` is the `nil` error); a pointer result is an `Option`.
* A `time.Time` is an instant, counted in nanoseconds from the zero time
  (January 1, year 1, 00:00:00 UTC); the zero `time.Time` is `0`.
* `time.Now()` is a parameter of the function that calls it.
* The network is a parameter: a transport that answers one request with one response;
  `http.Client.Do` follows redirects over it.
-/

/-! ## Strings -/

/-- One byte of a Go string. -/
abbrev Byte := Fin 256

/-- Go `string`: an immutable sequence of bytes. -/
abbrev GoString := List Byte

/-- The bytes of a string literal of the source (Go source text is UTF-8). -/
def str (s : String) : GoString :=
  s.toList.flatMap (fun c => (String.utf8EncodeChar c).map (fun b => b.val))

/-- The colon, the delimiter of `userid:password`. -/
def colon : Byte := 58

/-- Go `error` value, identified by its message. -/
structure GoError where
  msg : GoString
deriving DecidableEq, Repr

/-- Search loop of `strings.Index`: `i` is the offset of `s` in the original string. -/
def Index.go (substr : GoString) : Int → GoString → Int
  | i, [] => if substr.isPrefixOf [] then i else -1
  | i, c :: t => if substr.isPrefixOf (c :: t) then i else Index.go substr (i + 1) t

/-- Go `strings.Index(s, substr)`: offset of the first occurrence of `substr` in `s`,
or `-1` when there is none. -/
def Index (s substr : GoString) : Int :=
  Index.go substr 0 s

/-- Go `strings.Join(elems, sep)`. -/
def Join : List GoString → GoString → GoString
  | [], _ => []
  | [a], _ => a
  | a :: b :: rest, sep => a ++ sep ++ Join (b :: rest) sep

/-! ## encoding/base64, standard padded encoding -/

/-- The alphabet `encodeStd` of Go's `base64.StdEncoding`. -/
def encodeStd : GoString :=
  str "ABCDEFGHIJKLMNOPQRSTUVWXYZabcdefghijklmnopqrstuvwxyz0123456789+/"

/-- The padding character `'='` of `base64.StdEncoding`. -/
def padChar : Byte := 61

/-- Table lookup `enc.encode[i]`. -/
def encChar (i : Nat) : Byte :=
  encodeStd.getD i 0

/-- The reverse table `enc.decodeMap`: the 6-bit value of an alphabet character,
`none` for a byte outside the alphabet (`0xFF` in Go). -/
def decodeMap (c : Byte) : Option Nat :=
  let i := encodeStd.indexOf c
  if i < 64 then some i else none

/-- Go `base64.StdEncoding.EncodeToString`: three source bytes give four characters,
a final group of one or two bytes is padded with `'='`. -/
def EncodeToString : GoString → GoString
  | a :: b :: c :: rest =>
    let val := a.val <<< 16 ||| b.val <<< 8 ||| c.val
    encChar (val >>> 18 &&& 0x3F) :: encChar (val >>> 12 &&& 0x3F) ::
      encChar (val >>> 6 &&& 0x3F) :: encChar (val &&& 0x3F) :: EncodeToString rest
  | [a, b] =>
    let val := a.val <<< 16 ||| b.val <<< 8
    [encChar (val >>> 18 &&& 0x3F), encChar (val >>> 12 &&& 0x3F),
      encChar (val >>> 6 &&& 0x3F), padChar]
  | [a] =>
    let val := a.val <<< 16
    [encChar (val >>> 18 &&& 0x3F), encChar (val >>> 12 &&& 0x3F), padChar, padChar]
  | [] => []

/-- The low eight bits of `n`, Go's conversion `byte(n)`. -/
def toByte (n : Nat) : Byte :=
  ⟨n % 256, Nat.mod_lt _ (by decide)⟩

/-- Decoding of a newline-free input, one quantum of four characters at a time.
Padding is accepted only in the last quantum (`xx==` or `xxx=`). -/
def decodeQuanta : GoString → Option GoString
  | [] => some []
  | a :: b :: c :: d :: rest =>
    if d = padChar then
      if rest ≠ [] then none
      else if c = padChar then
        match decodeMap a, decodeMap b with
        | some v0, some v1 =>
          let val := v0 <<< 18 ||| v1 <<< 12
          some [toByte (val >>> 16)]
        | _, _ => none
      else
        match decodeMap a, decodeMap b, decodeMap c with
        | some v0, some v1, some v2 =>
          let val := v0 <<< 18 ||| v1 <<< 12 ||| v2 <<< 6
          some [toByte (val >>> 16), toByte (val >>> 8)]
        | _, _, _ => none
    else
      match decodeMap a, decodeMap b, decodeMap c, decodeMap d, decodeQuanta rest with
      | some v0, some v1, some v2, some v3, some out =>
        let val := v0 <<< 18 ||| v1 <<< 12 ||| v2 <<< 6 ||| v3
        some (toByte (val >>> 16) :: toByte (val >>> 8) :: toByte val :: out)
      | _, _, _, _, _ => none
  | _ => none

/-- Go `base64.StdEncoding.DecodeString`: carriage returns and line feeds are
ignored, the rest is decoded quantum by quantum; `none` is a `CorruptInputError`. -/
def DecodeString (s : GoString) : Option GoString :=
  decodeQuanta (s.filter (fun c => c ≠ 10 ∧ c ≠ 13))

/-! ## basicauth.go -/

/-- Go `fmt.Errorf("RFC7617 user-id cannot include a colon (':') [%v]", userid)`. -/
def errColon (userid : GoString) : GoError :=
  ⟨str "RFC7617 user-id cannot include a colon (':') [" ++ userid ++ str "]"⟩

/-- Function `RFC7617UserPass` of `basicauth.go`: the Base64 encoding of `userid:password`,
or an error when the user id contains a colon. -/
def RFC7617UserPass (userid password : GoString) : GoString × Option GoError :=
  if Index userid (str ":") > -1 then
    ([], some (errColon userid))
  else
    let userpass := Join [userid, password] (str ":")
    (EncodeToString userpass, none)

/-- The token type `oauth2.Token` of `golang.org/x/oauth2` (exported fields). -/
structure Token where
  AccessToken : GoString
  TokenType : GoString
  RefreshToken : GoString
  Expiry : Int
deriving DecidableEq, Repr

/-- The result of `timeutil.TimeRFC3339Zero()`, the instant `0001-01-01T00:00:00Z`,
which is the zero `time.Time`. -/
def TimeRFC3339Zero : Int := 0

/-- Function `BasicAuthToken` of `basicauth.go`. -/
def BasicAuthToken (username password : GoString) : Option Token × Option GoError :=
  match RFC7617UserPass username password with
  | (_, some err) => (none, some err)
  | (basicToken, none) =>
    (some { AccessToken := basicToken, TokenType := str "Basic", RefreshToken := [],
            Expiry := TimeRFC3339Zero }, none)

/-! ## unicode/utf8 and strings.TrimSpace -/

/-- Go `utf8.RuneError`, U+FFFD. -/
def RuneError : Nat := 0xFFFD

/-- The table `first` of `unicode/utf8`: information about the first byte of an
encoding (`as = 0xF0` ASCII, `xx = 0xF1` invalid, otherwise size in the low bits and
the index of the accept range in the high bits). -/
def first (b : Byte) : Nat :=
  if b.val < 0x80 then 0xF0
  else if b.val < 0xC2 then 0xF1
  else if b.val < 0xE0 then 0x02
  else if b.val = 0xE0 then 0x13
  else if b.val < 0xED then 0x03
  else if b.val = 0xED then 0x23
  else if b.val < 0xF0 then 0x03
  else if b.val = 0xF0 then 0x34
  else if b.val < 0xF4 then 0x04
  else if b.val = 0xF4 then 0x44
  else 0xF1

/-- The table `acceptRanges` of `unicode/utf8`: allowed range of the second byte. -/
def acceptRanges : Nat → Nat × Nat
  | 0 => (0x80, 0xBF)
  | 1 => (0xA0, 0xBF)
  | 2 => (0x80, 0x9F)
  | 3 => (0x90, 0xBF)
  | 4 => (0x80, 0x8F)
  | _ => (0, 0)

/-- Go `utf8.DecodeRuneInString`: the first rune of `s` and its width in bytes;
`(RuneError, 1)` for an invalid encoding, `(RuneError, 0)` for the empty string. -/
def DecodeRuneInString (s : GoString) : Nat × Nat :=
  match s with
  | [] => (RuneError, 0)
  | s0 :: t =>
    let x := first s0
    if x ≥ 0xF0 then
      (if x = 0xF0 then s0.val else RuneError, 1)
    else
      let sz := x &&& 7
      let accept := acceptRanges (x >>> 4)
      if s.length < sz then (RuneError, 1)
      else
        match t with
        | [] => (RuneError, 1)
        | s1 :: t1 =>
          if s1.val < accept.1 ∨ accept.2 < s1.val then (RuneError, 1)
          else if sz ≤ 2 then ((s0.val &&& 0x1F) <<< 6 ||| (s1.val &&& 0x3F), 2)
          else
            match t1 with
            | [] => (RuneError, 1)
            | s2 :: t2 =>
              if s2.val < 0x80 ∨ 0xBF < s2.val then (RuneError, 1)
              else if sz ≤ 3 then
                ((s0.val &&& 0x0F) <<< 12 ||| (s1.val &&& 0x3F) <<< 6 ||| (s2.val &&& 0x3F), 3)
              else
                match t2 with
                | [] => (RuneError, 1)
                | s3 :: _ =>
                  if s3.val < 0x80 ∨ 0xBF < s3.val then (RuneError, 1)
                  else
                    ((s0.val &&& 0x07) <<< 18 ||| (s1.val &&& 0x3F) <<< 12 |||
                      (s2.val &&& 0x3F) <<< 6 ||| (s3.val &&& 0x3F), 4)

/-- Go `utf8.RuneStart`: the byte is not a continuation byte. -/
def RuneStart (b : Byte) : Bool :=
  b.val &&& 0xC0 != 0x80

/-- The backward scan of `utf8.DecodeLastRuneInString`:
`for start--; start >= lim; start-- { if RuneStart(s[start]) { break } }`,
entered with `start` already decremented. -/
def DecodeLastRuneInString.scan (s : GoString) (lim : Int) : Nat → Int → Int
  | 0, start => start
  | fuel + 1, start =>
    if start ≥ lim then
      if RuneStart (s.getD start.toNat 0) then start
      else DecodeLastRuneInString.scan s lim fuel (start - 1)
    else start

/-- Go `utf8.DecodeLastRuneInString`: the last rune of `s` and its width. -/
def DecodeLastRuneInString (s : GoString) : Nat × Nat :=
  let n := s.length
  if n = 0 then (RuneError, 0)
  else
    let r := (s.getD (n - 1) 0).val
    if r < 0x80 then (r, 1)
    else
      let lim : Int := if (n : Int) - 4 < 0 then 0 else (n : Int) - 4
      let start := DecodeLastRuneInString.scan s lim s.length ((n : Int) - 2)
      let start := if start < 0 then 0 else start.toNat
      let (r, size) := DecodeRuneInString (s.drop start)
      if start + size ≠ n then (RuneError, 1) else (r, size)

/-- Go `unicode.IsSpace`: the Latin-1 white space and the code points with the
`White_Space` property beyond Latin-1. -/
def IsSpace (r : Nat) : Bool :=
  if r ≤ 0xFF then
    r = 0x09 ∨ r = 0x0A ∨ r = 0x0B ∨ r = 0x0C ∨ r = 0x0D ∨ r = 0x20 ∨ r = 0x85 ∨ r = 0xA0
  else
    r = 0x1680 ∨ (0x2000 ≤ r ∧ r ≤ 0x200A) ∨ r = 0x2028 ∨ r = 0x2029 ∨ r = 0x202F ∨
      r = 0x205F ∨ r = 0x3000

/-- The table `asciiSpace` of package `strings`. -/
def asciiSpace (c : Byte) : Bool :=
  c.val = 0x09 ∨ c.val = 0x0A ∨ c.val = 0x0B ∨ c.val = 0x0C ∨ c.val = 0x0D ∨ c.val = 0x20

/-- The loop of `strings.indexFunc`, `for i, r := range s`; every step consumes at
least one byte, so `s.length` steps are enough. -/
def indexFunc.go (f : Nat → Bool) (truth : Bool) : Nat → Int → GoString → Int
  | 0, _, _ => -1
  | _ + 1, _, [] => -1
  | fuel + 1, i, c :: t =>
    let (r, size) := DecodeRuneInString (c :: t)
    if f r == truth then i
    else indexFunc.go f truth fuel (i + size) ((c :: t).drop size)

/-- Go `strings.indexFunc`: byte offset of the first rune with `f(r) == truth`, or `-1`. -/
def indexFunc (s : GoString) (f : Nat → Bool) (truth : Bool) : Int :=
  indexFunc.go f truth s.length 0 s

/-- The loop of `strings.lastIndexFunc`, `for i := len(s); i > 0; `. -/
def lastIndexFunc.go (s : GoString) (f : Nat → Bool) (truth : Bool) : Nat → Nat → Int
  | 0, _ => -1
  | fuel + 1, i =>
    if i > 0 then
      let (r, size) := DecodeLastRuneInString (s.take i)
      if f r == truth then ((i - size : Nat) : Int)
      else lastIndexFunc.go s f truth fuel (i - size)
    else -1

/-- Go `strings.lastIndexFunc`: byte offset of the last rune with `f(r) == truth`, or `-1`. -/
def lastIndexFunc (s : GoString) (f : Nat → Bool) (truth : Bool) : Int :=
  lastIndexFunc.go s f truth s.length s.length

/-- Go `strings.TrimLeftFunc`. -/
def TrimLeftFunc (s : GoString) (f : Nat → Bool) : GoString :=
  let i := indexFunc s f false
  if i = -1 then [] else s.drop i.toNat

/-- Go `strings.TrimRightFunc`. -/
def TrimRightFunc (s : GoString) (f : Nat → Bool) : GoString :=
  let i := lastIndexFunc s f false
  if i ≥ 0 ∧ (s.getD i.toNat 0).val ≥ 0x80 then
    s.take (i.toNat + (DecodeRuneInString (s.drop i.toNat)).2)
  else
    s.take (i + 1).toNat

/-- Go `strings.TrimFunc`. -/
def TrimFunc (s : GoString) (f : Nat → Bool) : GoString :=
  TrimRightFunc (TrimLeftFunc s f) f

/-- The second loop of `strings.TrimSpace`, run on the reversed remainder
`s[start:stop]`: trailing ASCII white space is dropped, a non-ASCII byte hands
over to `TrimRightFunc`. -/
def TrimSpace.stop : GoString → GoString
  | [] => []
  | c :: t =>
    if c.val ≥ 0x80 then TrimRightFunc (c :: t).reverse IsSpace
    else if asciiSpace c then TrimSpace.stop t
    else (c :: t).reverse

/-- Go `strings.TrimSpace`: `s` without leading and trailing white space. The first
loop drops leading ASCII white space and hands over to `TrimFunc` at the first
non-ASCII byte. -/
def TrimSpace : GoString → GoString
  | [] => []
  | c :: t =>
    if c.val ≥ 0x80 then TrimFunc (c :: t) IsSpace
    else if asciiSpace c then TrimSpace t
    else TrimSpace.stop (c :: t).reverse

/-! ## strconv.Itoa and integer conversion -/

/-- The ASCII digit of `d`. -/
def digit (d : Nat) : Byte :=
  toByte (48 + d % 10)

/-- Decimal digits of `n` in front of `acc`, least significant digit first into the
buffer as in `strconv.formatBits`; `n` steps are always enough. -/
def utoa.go : Nat → Nat → GoString → GoString
  | 0, n, acc => digit n :: acc
  | fuel + 1, n, acc =>
    if n < 10 then digit n :: acc
    else utoa.go fuel (n / 10) (digit (n % 10) :: acc)

/-- The decimal representation of an unsigned integer. -/
def utoa (n : Nat) : GoString :=
  utoa.go n n []

/-- Go `strconv.FormatInt(i, 10)`: a minus sign in front of the digits of a negative
number. This is also what `fmt` prints for `%v` of an integer. -/
def FormatInt (i : Int) : GoString :=
  if i < 0 then 45 :: utoa (-i).toNat else utoa i.toNat

/-- The size in bits of Go's `int` (`strconv.IntSize`) on 64-bit targets. -/
def intSize : Nat := 64

/-- Go's conversion `int(x)` of an `int64`: the low `intSize` bits, two's complement. -/
def toInt (x : Int) : Int :=
  (x + 2 ^ (intSize - 1)) % 2 ^ intSize - 2 ^ (intSize - 1)

/-- Go `strconv.Itoa(i)` for an `int` value. -/
def Itoa (i : Int) : GoString :=
  FormatInt i

/-- The number a string of decimal digits denotes, most significant digit first;
`none` when the string is empty or has a byte that is not a digit. -/
def digitsValue (s : GoString) : Option Nat :=
  if s = [] then none
  else s.foldl (fun acc c =>
    match acc with
    | some x => if 48 ≤ c.val ∧ c.val ≤ 57 then some (x * 10 + (c.val - 48)) else none
    | none => none) (some 0)

/-- The integer a base-10 numeral denotes: decimal digits, after a minus sign for a
negative number. -/
def decimalValue (s : GoString) : Option Int :=
  match s with
  | [] => none
  | c :: t =>
    if c = 45 then
      match digitsValue t with
      | some n => some (- (n : Int))
      | none => none
    else
      match digitsValue (c :: t) with
      | some n => some (n : Int)
      | none => none

/-- The values of type `int64`. -/
def isInt64 (x : Int) : Prop :=
  -2 ^ 63 ≤ x ∧ x < 2 ^ 63

instance (x : Int) : Decidable (isInt64 x) :=
  inferInstanceAs (Decidable (_ ∧ _))

/-! ## net/url Values -/

/-- Go `url.Values`, a `map[string][]string`: a list of entries with distinct keys. -/
abbrev Values := List (GoString × List GoString)

/-- Go `v.Set(key, value)`, that is `v[key] = []string{value}`: the entry of `key`
is replaced, or added when the key is new. -/
def Values.Set : Values → GoString → GoString → Values
  | [], key, value => [(key, [value])]
  | (k, xs) :: rest, key, value =>
    if k = key then (key, [value]) :: rest
    else (k, xs) :: Values.Set rest key value

/-- The map access `v[key]`: the values stored under `key`, `none` when the key is
absent. -/
def Values.lookup : Values → GoString → Option (List GoString)
  | [], _ => none
  | (k, xs) :: rest, key => if k = key then some xs else Values.lookup rest key

/-- The keys of the map. -/
def Values.keys (v : Values) : List GoString :=
  v.map Prod.fst

/-! ## credentials/credentials_password.go -/

namespace credentials

/-- Modelled from the spec: the constant `oauth2more.GrantTypePassword`, declared
outside the sources at hand; the form carries `grant_type=password`. -/
def GrantTypePassword : GoString := str "password"

/-- The record `PasswordCredentials` of package `credentials`. -/
structure PasswordCredentials where
  GrantType : GoString
  AccessTokenTTL : Int
  RefreshTokenTTL : Int
  Username : GoString
  Extension : GoString
  Password : GoString
  EndpointId : GoString
  EngageVoiceAccountId : Int
deriving DecidableEq, Repr

/-- Function `PasswordCredentials.URLValues` of `credentials_password.go`. -/
def PasswordCredentials.URLValues (pw : PasswordCredentials) : Values :=
  let v : Values := [(str "grant_type", [GrantTypePassword]),
                     (str "username", [pw.Username]),
                     (str "password", [pw.Password])]
  let v := if pw.AccessTokenTTL ≠ 0 then
      Values.Set v (str "access_token_ttl") (Itoa (toInt pw.AccessTokenTTL)) else v
  let v := if pw.RefreshTokenTTL ≠ 0 then
      Values.Set v (str "refresh_token_ttl") (Itoa (toInt pw.RefreshTokenTTL)) else v
  let v := if pw.Extension.length > 0 then
      Values.Set v (str "extension") pw.Extension else v
  let v := if pw.EndpointId.length > 0 then
      Values.Set v (str "endpoint_id") pw.EndpointId else v
  v

/-- Function `PasswordCredentials.UsernameSimple` of `credentials_password.go`. -/
def PasswordCredentials.UsernameSimple (uc : PasswordCredentials) : GoString :=
  if (TrimSpace uc.Extension).length > 0 then
    Join [uc.Username, uc.Extension] (str "*")
  else uc.Username

end credentials

/-! ## ringcentral/ringcentral_client.go: credentials -/

namespace ringcentral

/-- The record `UserCredentials` of package `ringcentral`. -/
structure UserCredentials where
  Username : GoString
  Extension : GoString
  Password : GoString
deriving DecidableEq, Repr

/-- Function `UserCredentials.UsernameSimple` of `ringcentral_client.go`. -/
def UserCredentials.UsernameSimple (uc : UserCredentials) : GoString :=
  if (TrimSpace uc.Extension).length > 0 then
    Join [uc.Username, uc.Extension] (str "*")
  else uc.Username

/-- The record `PasswordCredentials` of package `ringcentral`. -/
structure PasswordCredentials where
  GrantType : GoString
  AccessTokenTTL : Int
  RefreshTokenTTL : Int
  Username : GoString
  Extension : GoString
  Password : GoString
  EndpointId : GoString
deriving DecidableEq, Repr

/-- Function `PasswordCredentials.URLValues` of `ringcentral_client.go`. -/
def PasswordCredentials.URLValues (pw : PasswordCredentials) : Values :=
  let v : Values := [(str "grant_type", [str "password"]),
                     (str "username", [pw.Username]),
                     (str "password", [pw.Password])]
  let v := if pw.AccessTokenTTL ≠ 0 then
      Values.Set v (str "access_token_ttl") (Itoa (toInt pw.AccessTokenTTL)) else v
  let v := if pw.RefreshTokenTTL ≠ 0 then
      Values.Set v (str "refresh_token_ttl") (Itoa (toInt pw.RefreshTokenTTL)) else v
  let v := if pw.Extension.length > 0 then
      Values.Set v (str "extension") pw.Extension else v
  let v := if pw.EndpointId.length > 0 then
      Values.Set v (str "endpoint_id") pw.EndpointId else v
  v

end ringcentral

/-! ## time.ParseDuration -/

/-- The loop of `leadingInt` of package `time`: the leading digits of `s` as a
`uint64` not above `1<<63`, and the rest of `s`; `none` is `errLeadingInt`. -/
def leadingInt.go : Nat → GoString → Option (Nat × GoString)
  | x, [] => some (x, [])
  | x, c :: t =>
    if c.val < 48 ∨ c.val > 57 then some (x, c :: t)
    else if x > 2 ^ 63 / 10 then none
    else
      let x := (x * 10 + c.val - 48) % 2 ^ 64
      if x > 2 ^ 63 then none else leadingInt.go x t

/-- Function `leadingInt` of package `time`. -/
def leadingInt (s : GoString) : Option (Nat × GoString) :=
  leadingInt.go 0 s

/-- The loop of `leadingFraction` of package `time`: the digits after the decimal
point as an integer, the power of ten to divide it by, and the rest of `s`; digits
that would overflow are skipped. -/
def leadingFraction.go : Nat → Float → Bool → GoString → Nat × Float × GoString
  | x, scale, _, [] => (x, scale, [])
  | x, scale, overflow, c :: t =>
    if c.val < 48 ∨ c.val > 57 then (x, scale, c :: t)
    else if overflow then leadingFraction.go x scale true t
    else if x > (2 ^ 63 - 1) / 10 then leadingFraction.go x scale true t
    else
      let y := (x * 10 + c.val - 48) % 2 ^ 64
      if y > 2 ^ 63 then leadingFraction.go x scale true t
      else leadingFraction.go y (scale * 10) false t

/-- Function `leadingFraction` of package `time`. -/
def leadingFraction (s : GoString) : Nat × Float × GoString :=
  leadingFraction.go 0 1 false s

/-- The table `unitMap` of package `time`, in nanoseconds. -/
def unitMap (u : GoString) : Option Nat :=
  if u = str "ns" then some 1
  else if u = str "us" then some 1000
  else if u = str "µs" then some 1000
  else if u = str "μs" then some 1000
  else if u = str "ms" then some 1000000
  else if u = str "s" then some 1000000000
  else if u = str "m" then some 60000000000
  else if u = str "h" then some 3600000000000
  else none

/-- The digit table `lowerhex` of package `time`. -/
def lowerhex (n : Nat) : Byte :=
  (str "0123456789abcdef").getD n 0

/-- Function `quote` of package `time`: the string in double quotes, control and non-ASCII
bytes as `\xHH`, and a backslash in front of `"` and `\`. -/
def quote (s : GoString) : GoString :=
  34 :: s.flatMap (fun c =>
    if c.val ≥ 0x80 ∨ c.val < 0x20 then [92, 120, lowerhex (c.val >>> 4), lowerhex (c.val &&& 0xF)]
    else if c.val = 34 ∨ c.val = 92 then [92, c]
    else [c]) ++ [34]

/-- The error `time: invalid duration "orig"`. -/
def errInvalidDuration (orig : GoString) : GoError :=
  ⟨str "time: invalid duration " ++ quote orig⟩

/-- The main loop `for s != ""` of `time.ParseDuration`: each round reads a number,
an optional fraction and a unit and adds the product to `d` (a `uint64`). A round
consumes at least one byte, so `s.length` rounds are enough. -/
def ParseDuration.loop (orig : GoString) : Nat → Nat → GoString → Except GoError Nat
  | _, d, [] => .ok d
  | 0, _, _ :: _ => .error (errInvalidDuration orig)
  | fuel + 1, d, c :: t =>
    if ¬ (c.val = 46 ∨ (48 ≤ c.val ∧ c.val ≤ 57)) then .error (errInvalidDuration orig)
    else
      match leadingInt (c :: t) with
      | none => .error (errInvalidDuration orig)
      | some (v, s) =>
        let pre := (c :: t).length ≠ s.length
        let frac : Nat × Float × GoString × Bool :=
          match s with
          | c1 :: t1 =>
            if c1.val = 46 then
              let (f, scale, s1) := leadingFraction t1
              (f, scale, s1, decide (t1.length ≠ s1.length))
            else (0, 1, s, false)
          | [] => (0, 1, s, false)
        let f := frac.1
        let scale := frac.2.1
        let s := frac.2.2.1
        let post := frac.2.2.2
        if ¬ pre ∧ ¬ post then .error (errInvalidDuration orig)
        else
          let u := s.takeWhile (fun c => ¬ (c.val = 46 ∨ (48 ≤ c.val ∧ c.val ≤ 57)))
          let s := s.drop u.length
          if u.length = 0 then
            .error ⟨str "time: missing unit in duration " ++ quote orig⟩
          else
            match unitMap u with
            | none =>
              .error ⟨str "time: unknown unit " ++ quote u ++ str " in duration " ++ quote orig⟩
            | some unit =>
              if v > 2 ^ 63 / unit then .error (errInvalidDuration orig)
              else
                let v := (v * unit) % 2 ^ 64
                let v := if f > 0 then
                    (v + (Float.ofNat f * (Float.ofNat unit / scale)).toUInt64.toNat) % 2 ^ 64
                  else v
                if f > 0 ∧ v > 2 ^ 63 then .error (errInvalidDuration orig)
                else
                  let d := (d + v) % 2 ^ 64
                  if d > 2 ^ 63 then .error (errInvalidDuration orig)
                  else ParseDuration.loop orig fuel d s

/-- The value of an unsigned 64-bit integer converted to `int64` (two's complement). -/
def toInt64 (x : Int) : Int :=
  (x + 2 ^ 63) % 2 ^ 64 - 2 ^ 63

/-- Go `time.ParseDuration(s)`: the duration in nanoseconds and the error. -/
def ParseDuration (s : GoString) : Int × Option GoError :=
  let orig := s
  let neg := s.head? = some 45
  let s := if s.head? = some 45 ∨ s.head? = some 43 then s.drop 1 else s
  if s = str "0" then (0, none)
  else if s = [] then (0, some (errInvalidDuration orig))
  else
    match ParseDuration.loop orig s.length 0 s with
    | .error err => (0, some err)
    | .ok d =>
      if neg then (toInt64 (- toInt64 d), none)
      else if d > 2 ^ 63 - 1 then (0, some (errInvalidDuration orig))
      else ((d : Int), none)

/-- Go `fmt.Sprintf("%vs", n)` for an integer `n`. -/
def sprintfSeconds (n : Int) : GoString :=
  FormatInt n ++ str "s"

/-- Go `t.Add(d)` for an instant and a duration in nanoseconds. -/
def Time.Add (t d : Int) : Int :=
  t + d

/-! ## ringcentral/ringcentral_client.go: tokens -/

namespace ringcentral

/-- The record `RcToken`, the token response of the vendor. `Expiry` and
`RefreshTokenExpiry` are instants, `0` being the zero `time.Time`. -/
structure RcToken where
  AccessToken : GoString
  TokenType : GoString
  Scope : GoString
  ExpiresIn : Int
  RefreshToken : GoString
  RefreshTokenExpiresIn : Int
  OwnerID : GoString
  EndpointID : GoString
  Expiry : Int
  RefreshTokenExpiry : Int
  inflated : Bool
deriving DecidableEq, Repr

/-- Function `RcToken.Inflate` of `ringcentral_client.go`, with `now` the value of
`time.Now()`: the record after the call and the error returned. -/
def RcToken.Inflate (now : Int) (rcTok : RcToken) : RcToken × Option GoError :=
  let step1 : RcToken × Option GoError :=
    if rcTok.ExpiresIn > 0 then
      match ParseDuration (sprintfSeconds rcTok.ExpiresIn) with
      | (_, some err) => (rcTok, some err)
      | (expiresIn, none) => ({ rcTok with Expiry := Time.Add now expiresIn }, none)
    else (rcTok, none)
  match step1 with
  | (rcTok, some err) => (rcTok, some err)
  | (rcTok, none) =>
    let step2 : RcToken × Option GoError :=
      if rcTok.RefreshTokenExpiresIn > 0 then
        match ParseDuration (sprintfSeconds rcTok.RefreshTokenExpiresIn) with
        | (_, some err) => (rcTok, some err)
        | (expiresIn, none) => ({ rcTok with RefreshTokenExpiry := Time.Add now expiresIn }, none)
      else (rcTok, none)
    match step2 with
    | (rcTok, some err) => (rcTok, some err)
    | (rcTok, none) => ({ rcTok with inflated := true }, none)

/-- Function `RcToken.OAuth2Token` of `ringcentral_client.go`, with `now` the value `time.Now()`
has at the time of the call: the record after the call, the token and the error. -/
def RcToken.OAuth2Token (now : Int) (rcTok : RcToken) :
    RcToken × Option Token × Option GoError :=
  let step : RcToken × Option GoError :=
    if ¬ rcTok.inflated then RcToken.Inflate now rcTok else (rcTok, none)
  match step with
  | (rcTok, some err) => (rcTok, none, some err)
  | (rcTok, none) =>
    (rcTok,
     some { AccessToken := rcTok.AccessToken, TokenType := rcTok.TokenType,
            RefreshToken := rcTok.RefreshToken, Expiry := rcTok.Expiry },
     none)

/-- The part of `oauth2.Config` that token retrieval reads. -/
structure Config where
  ClientID : GoString
  ClientSecret : GoString
  TokenURL : GoString
  RedirectURL : GoString
deriving DecidableEq, Repr

/-- An HTTP request as built by `RetrieveRcToken`. -/
structure Request where
  Method : GoString
  URL : GoString
  Header : List (GoString × GoString)
  Body : GoString
deriving DecidableEq, Repr

/-- The part of an `http.Response` that is read: the status code, the value of the
`Location` header (empty when the header is absent) and the body. -/
structure Response where
  StatusCode : Int
  Location : GoString
  Body : GoString
deriving DecidableEq, Repr

/-- The packages and the network `RetrieveRcToken` relies on: `url.Values.Encode`, the
error of `http.NewRequest` for a URL, `oauth2more.BasicAuthHeader`, and
`jsonutil.UnmarshalIoReader` into a fresh `RcToken`; for `http.Client.Do` the
transport, which answers one request with one response (`RoundTrip`), the resolution
of a `Location` value against the URL of the request (`req.URL.Parse(loc)`), the
headers the client gives the request of the next hop (`RedirectHeader`, from the first
request, the last request and the new URL), and the two error wrappers of the client:
the `*url.Error` built from the method of the first request, a URL and the cause
(`UrlError`), and the error for a `Location` value that does not parse
(`LocationError`). -/
structure Env where
  Encode : Values → GoString
  NewRequestErr : GoString → Option GoError
  BasicAuthHeader : GoString → GoString → GoString × Option GoError
  RoundTrip : Request → Except GoError Response
  ParseLocation : GoString → GoString → Except GoError GoString
  RedirectHeader : Request → Request → GoString → List (GoString × GoString)
  UrlError : GoString → GoString → GoError → GoError
  LocationError : GoString → GoError → GoError
  UnmarshalIoReader : GoString → RcToken × Option GoError

/-- Function `redirectBehavior` of `net/http`: the method of the next request, whether
the response is a redirect to follow, and whether the body is sent again. The request
built by `http.NewRequest` from a `strings.Reader` has `GetBody` set, so a 307 or 308
is followed. -/
def redirectBehavior (reqMethod : GoString) (resp : Response) : GoString × Bool × Bool :=
  if resp.StatusCode = 301 ∨ resp.StatusCode = 302 ∨ resp.StatusCode = 303 then
    (if reqMethod ≠ str "GET" ∧ reqMethod ≠ str "HEAD" then str "GET" else reqMethod,
     true, false)
  else if resp.StatusCode = 307 ∨ resp.StatusCode = 308 then
    (reqMethod, true, true)
  else
    ([], false, false)

/-- The loop of `http.Client.do` for a client without `CheckRedirect`: the request is
sent; a response that is no redirect, or has no `Location`, is returned; otherwise the
next request goes to the resolved location, unless ten requests have been sent already
(`defaultCheckRedirect`). The first argument counts the redirects still allowed. -/
def Client.Do.loop (env : Env) (ireq : Request) : Nat → Request → Except GoError Response
  | allowed, req =>
    match env.RoundTrip req with
    | .error err => .error (env.UrlError ireq.Method req.URL err)
    | .ok resp =>
      if (redirectBehavior req.Method resp).2.1 = false then .ok resp
      else if resp.Location = [] then .ok resp
      else
        match env.ParseLocation req.URL resp.Location with
        | .error err =>
          .error (env.UrlError ireq.Method req.URL (env.LocationError resp.Location err))
        | .ok u =>
          match allowed with
          | 0 =>
            .error (env.UrlError ireq.Method resp.Location ⟨str "stopped after 10 redirects"⟩)
          | allowed + 1 =>
            Client.Do.loop env ireq allowed
              { Method := (redirectBehavior req.Method resp).1
                URL := u
                Header := env.RedirectHeader ireq req u
                Body := if (redirectBehavior req.Method resp).2.2 then ireq.Body else [] }

/-- Function `http.Client.Do` on the zero `http.Client`: the response handed back after
redirects have been followed, or the error. Nine redirects are followed, the tenth is
refused; Go then returns the last response together with the error, and the caller
reads the error first, so only the error is kept here. -/
def Client.Do (env : Env) (req : Request) : Except GoError Response :=
  Client.Do.loop env req 9 req

/-- Modelled from the spec: the header names and the content type of package
`httputilmore`, declared outside the sources at hand (`Authorization`,
`Content-Type`, `Content-Length`, `application/x-www-form-urlencoded`). -/
def HeaderAuthorization : GoString := str "Authorization"

/-- Modelled from the spec: the header name `Content-Type` of package `httputilmore`. -/
def HeaderContentType : GoString := str "Content-Type"

/-- Modelled from the spec: the header name `Content-Length` of package `httputilmore`. -/
def HeaderContentLength : GoString := str "Content-Length"

/-- Modelled from the spec: the content type of a form body, of package `httputilmore`. -/
def ContentTypeAppFormUrlEncoded : GoString := str "application/x-www-form-urlencoded"

/-- The request `RetrieveRcToken` sends once `http.NewRequest` and `BasicAuthHeader`
have succeeded. -/
def tokenRequest (env : Env) (cfg : Config) (params : Values) : Request :=
  { Method := str "POST"
    URL := cfg.TokenURL
    Header := [(HeaderAuthorization, (env.BasicAuthHeader cfg.ClientID cfg.ClientSecret).1),
               (HeaderContentType, ContentTypeAppFormUrlEncoded),
               (HeaderContentLength, Itoa (env.Encode params).length)]
    Body := env.Encode params }

/-- The error `fmt.Errorf("RingCentral API Response Status [%v]", resp.StatusCode)`. -/
def errStatus (statusCode : Int) : GoError :=
  ⟨str "RingCentral API Response Status [" ++ FormatInt statusCode ++ str "]"⟩

/-- Function `RetrieveRcToken` of `ringcentral_client.go`, with `now` the value of `time.Now()`
when the response has been parsed. -/
def RetrieveRcToken (env : Env) (now : Int) (cfg : Config) (params : Values) :
    Option RcToken × Option GoError :=
  match env.NewRequestErr cfg.TokenURL with
  | some err => (none, some err)
  | none =>
    match env.BasicAuthHeader cfg.ClientID cfg.ClientSecret with
    | (_, some err) => (none, some err)
    | (_, none) =>
      match Client.Do env (tokenRequest env cfg params) with
      | .error err => (none, some err)
      | .ok resp =>
        if resp.StatusCode ≥ 300 then (none, some (errStatus resp.StatusCode))
        else
          match env.UnmarshalIoReader resp.Body with
          | (_, some err) => (none, some err)
          | (rcToken, none) =>
            let r := RcToken.Inflate now rcToken
            (some r.1, r.2)

/-- Function `RetrieveToken` of `ringcentral_client.go`; `now` is the clock reading inside
`RetrieveRcToken`, `now2` the one at the call of `OAuth2Token`. The last case is not
reached: `RetrieveRcToken` returns a record whenever it returns no error. -/
def RetrieveToken (env : Env) (now now2 : Int) (cfg : Config) (params : Values) :
    Option Token × Option GoError :=
  match RetrieveRcToken env now cfg params with
  | (_, some err) => (none, some err)
  | (some rcToken, none) => (RcToken.OAuth2Token now2 rcToken).2
  | (none, none) => (none, none)

end ringcentral

/-! ## Statement vocabulary and sample data -/

/-- The optional keys of the password-grant form, in the order the source sets them:
a key is listed when its source field is non-zero (a TTL) or non-empty (a string). -/
def optionalKeys (accessTokenTTL refreshTokenTTL : Int) (extension endpointId : GoString) :
    List GoString :=
  (if accessTokenTTL ≠ 0 then [str "access_token_ttl"] else []) ++
  (if refreshTokenTTL ≠ 0 then [str "refresh_token_ttl"] else []) ++
  (if extension ≠ [] then [str "extension"] else []) ++
  (if endpointId ≠ [] then [str "endpoint_id"] else [])

/-- What the spec asks of the form `v` built from a credentials record: the three
mandatory fields with their values, each optional key present exactly when its source
field is set, and no further key. -/
def IsPasswordForm (v : Values) (accessTokenTTL refreshTokenTTL : Int)
    (username extension password endpointId : GoString) : Prop :=
  Values.lookup v (str "grant_type") = some [str "password"] ∧
  Values.lookup v (str "username") = some [username] ∧
  Values.lookup v (str "password") = some [password] ∧
  ((Values.lookup v (str "access_token_ttl")).isSome = true ↔ accessTokenTTL ≠ 0) ∧
  ((Values.lookup v (str "refresh_token_ttl")).isSome = true ↔ refreshTokenTTL ≠ 0) ∧
  ((Values.lookup v (str "extension")).isSome = true ↔ extension ≠ []) ∧
  ((Values.lookup v (str "endpoint_id")).isSome = true ↔ endpointId ≠ []) ∧
  Values.keys v = [str "grant_type", str "username", str "password"] ++
    optionalKeys accessTokenTTL refreshTokenTTL extension endpointId

/-- The record parsed from a response body that carries the access token `abc`, the
token type `Bearer` and `expires_in = N`, and nothing else. -/
def exampleToken (expiresIn : Int) : ringcentral.RcToken :=
  { AccessToken := str "abc", TokenType := str "Bearer", Scope := [], ExpiresIn := expiresIn,
    RefreshToken := [], RefreshTokenExpiresIn := 0, OwnerID := [], EndpointID := [],
    Expiry := 0, RefreshTokenExpiry := 0, inflated := false }

/-- An environment in which the request is built and sent without error, every
request is answered with `resp`, and the body parses to `parsed`. -/
def exampleEnv (resp : ringcentral.Response) (parsed : ringcentral.RcToken) : ringcentral.Env :=
  { Encode := fun _ => []
    NewRequestErr := fun _ => none
    BasicAuthHeader := fun _ _ => ([], none)
    RoundTrip := fun _ => .ok resp
    ParseLocation := fun _ loc => .ok loc
    RedirectHeader := fun ireq _ _ => ireq.Header
    UrlError := fun _ _ err => err
    LocationError := fun _ err => err
    UnmarshalIoReader := fun _ => (parsed, none) }

/-- A configuration for the examples. -/
def exampleConfig : ringcentral.Config :=
  { ClientID := str "id", ClientSecret := str "secret",
    TokenURL := str "https://example.com/token", RedirectURL := [] }

/-- An environment in which the token endpoint `https://example.com/token` answers
302 with the header `Location: https://example.com/token2`, and every other URL answers
200 with a body that parses to `parsed`. -/
def redirectEnv (parsed : ringcentral.RcToken) : ringcentral.Env :=
  { Encode := fun _ => []
    NewRequestErr := fun _ => none
    BasicAuthHeader := fun _ _ => ([], none)
    RoundTrip := fun req =>
      if req.URL = str "https://example.com/token" then
        .ok { StatusCode := 302, Location := str "https://example.com/token2", Body := [] }
      else
        .ok { StatusCode := 200, Location := [], Body := str "token" }
    ParseLocation := fun _ loc => .ok loc
    RedirectHeader := fun ireq _ _ => ireq.Header
    UrlError := fun _ _ err => err
    LocationError := fun _ err => err
    UnmarshalIoReader := fun _ => (parsed, none) }

/-- The responses `http.Client.Do` does not hand back but follows: a 301, 302, 303, 307
or 308 with a `Location` header. -/
def followed (resp : ringcentral.Response) : Prop :=
  (resp.StatusCode = 301 ∨ resp.StatusCode = 302 ∨ resp.StatusCode = 303 ∨
    resp.StatusCode = 307 ∨ resp.StatusCode = 308) ∧ resp.Location ≠ []

/-! ## Properties of the library models -/

section Base64

theorem or_eq_add_of_lt (m i y : Nat) (hy : y < 2 ^ i) : m * 2 ^ i ||| y = m * 2 ^ i + y := by
  rw [Nat.mul_comm, ← Nat.mul_add_lt_is_or hy]

theorem and_63 (x : Nat) : x &&& 0x3F = x % 64 :=
  Nat.and_pow_two_sub_one_eq_mod x 6

theorem pack2 (a b : Nat) (hb : b < 256) :
    a <<< 16 ||| b <<< 8 = a * 65536 + b * 256 := by
  rw [Nat.shiftLeft_eq, Nat.shiftLeft_eq]
  exact or_eq_add_of_lt a 16 (b * 2 ^ 8) (by omega)

theorem pack3 (a b c : Nat) (hb : b < 256) (hc : c < 256) :
    a <<< 16 ||| b <<< 8 ||| c = a * 65536 + b * 256 + c := by
  rw [pack2 a b hb]
  have h2 : a * 65536 + b * 256 = (a * 256 + b) * 2 ^ 8 := by omega
  rw [h2, or_eq_add_of_lt _ 8 c (by omega)]

theorem unpack2 (v0 v1 : Nat) (h1 : v1 < 64) :
    v0 <<< 18 ||| v1 <<< 12 = v0 * 262144 + v1 * 4096 := by
  rw [Nat.shiftLeft_eq, Nat.shiftLeft_eq]
  exact or_eq_add_of_lt v0 18 (v1 * 2 ^ 12) (by omega)

theorem unpack3 (v0 v1 v2 : Nat) (h1 : v1 < 64) (h2 : v2 < 64) :
    v0 <<< 18 ||| v1 <<< 12 ||| v2 <<< 6 = v0 * 262144 + v1 * 4096 + v2 * 64 := by
  rw [unpack2 v0 v1 h1, Nat.shiftLeft_eq]
  have h : v0 * 262144 + v1 * 4096 = (v0 * 64 + v1) * 2 ^ 12 := by omega
  rw [h, or_eq_add_of_lt _ 12 (v2 * 2 ^ 6) (by omega)]

theorem unpack4 (v0 v1 v2 v3 : Nat) (h1 : v1 < 64) (h2 : v2 < 64) (h3 : v3 < 64) :
    v0 <<< 18 ||| v1 <<< 12 ||| v2 <<< 6 ||| v3 = v0 * 262144 + v1 * 4096 + v2 * 64 + v3 := by
  rw [unpack3 v0 v1 v2 h1 h2]
  have h : v0 * 262144 + v1 * 4096 + v2 * 64 = (v0 * 4096 + v1 * 64 + v2) * 2 ^ 6 := by omega
  rw [h, or_eq_add_of_lt _ 6 v3 (by omega)]

theorem decodeMap_encChar (i : Nat) (h : i < 64) : decodeMap (encChar i) = some i := by
  have key : ∀ j : Fin 64, decodeMap (encChar j.val) = some j.val := by decide
  exact key ⟨i, h⟩

theorem encChar_ne_special (i : Nat) (h : i < 64) :
    encChar i ≠ padChar ∧ encChar i ≠ 10 ∧ encChar i ≠ 13 := by
  have key : ∀ j : Fin 64,
      encChar j.val ≠ padChar ∧ encChar j.val ≠ 10 ∧ encChar j.val ≠ 13 := by decide
  exact key ⟨i, h⟩

theorem sextet_lt (x : Nat) : x &&& 0x3F < 64 := by
  rw [and_63]; omega

theorem quantum3 (a b c : Byte) :
    let val := a.val <<< 16 ||| b.val <<< 8 ||| c.val
    let out := (val >>> 18 &&& 0x3F) <<< 18 ||| (val >>> 12 &&& 0x3F) <<< 12 |||
      (val >>> 6 &&& 0x3F) <<< 6 ||| (val &&& 0x3F)
    toByte (out >>> 16) = a ∧ toByte (out >>> 8) = b ∧ toByte out = c := by
  intro val out
  have hv : val = a.val * 65536 + b.val * 256 + c.val := pack3 _ _ _ b.isLt c.isLt
  have ho : out = val := by
    show (val >>> 18 &&& 0x3F) <<< 18 ||| (val >>> 12 &&& 0x3F) <<< 12 |||
      (val >>> 6 &&& 0x3F) <<< 6 ||| (val &&& 0x3F) = val
    rw [unpack4 _ _ _ _ (sextet_lt _) (sextet_lt _) (sextet_lt _)]
    simp only [and_63, Nat.shiftRight_eq_div_pow]
    have ha := a.isLt
    have hb := b.isLt
    have hc := c.isLt
    omega
  have ha := a.isLt
  have hb := b.isLt
  have hc := c.isLt
  rw [ho]
  refine ⟨?_, ?_, ?_⟩ <;> apply Fin.ext <;>
    simp only [toByte, Nat.shiftRight_eq_div_pow] <;> omega

theorem quantum2 (a b : Byte) :
    let val := a.val <<< 16 ||| b.val <<< 8
    let out := (val >>> 18 &&& 0x3F) <<< 18 ||| (val >>> 12 &&& 0x3F) <<< 12 |||
      (val >>> 6 &&& 0x3F) <<< 6
    toByte (out >>> 16) = a ∧ toByte (out >>> 8) = b := by
  intro val out
  have hv : val = a.val * 65536 + b.val * 256 := pack2 _ _ b.isLt
  have ho : out = (val >>> 18 &&& 0x3F) * 262144 + (val >>> 12 &&& 0x3F) * 4096 +
      (val >>> 6 &&& 0x3F) * 64 := unpack3 _ _ _ (sextet_lt _) (sextet_lt _)
  have ha := a.isLt
  have hb := b.isLt
  rw [ho]
  simp only [and_63, Nat.shiftRight_eq_div_pow]
  refine ⟨?_, ?_⟩ <;> apply Fin.ext <;> simp only [toByte] <;> omega

theorem quantum1 (a : Byte) :
    let val := a.val <<< 16
    let out := (val >>> 18 &&& 0x3F) <<< 18 ||| (val >>> 12 &&& 0x3F) <<< 12
    toByte (out >>> 16) = a := by
  intro val out
  have hv : val = a.val * 65536 := by
    show a.val <<< 16 = _
    rw [Nat.shiftLeft_eq]
  have ho : out = (val >>> 18 &&& 0x3F) * 262144 + (val >>> 12 &&& 0x3F) * 4096 :=
    unpack2 _ _ (sextet_lt _)
  have ha := a.isLt
  rw [ho]
  simp only [and_63, Nat.shiftRight_eq_div_pow]
  apply Fin.ext
  simp only [toByte]
  omega

theorem decodeQuanta_EncodeToString : ∀ s : GoString, decodeQuanta (EncodeToString s) = some s
  | [] => by rfl
  | [a] => by
    have q := quantum1 a
    simp only [EncodeToString, decodeQuanta, decodeMap_encChar _ (sextet_lt _)]
    simpa using q
  | [a, b] => by
    have q := quantum2 a b
    have h2 := (encChar_ne_special _ (sextet_lt ((a.val <<< 16 ||| b.val <<< 8) >>> 6))).1
    simp only [EncodeToString, decodeQuanta, decodeMap_encChar _ (sextet_lt _), if_neg h2]
    simpa using q
  | a :: b :: c :: rest => by
    have ih := decodeQuanta_EncodeToString rest
    have q := quantum3 a b c
    have h3 := (encChar_ne_special _ (sextet_lt (a.val <<< 16 ||| b.val <<< 8 ||| c.val))).1
    simp only [EncodeToString, decodeQuanta, decodeMap_encChar _ (sextet_lt _), if_neg h3, ih]
    simpa using q

theorem EncodeToString_no_newline :
    ∀ s : GoString, ∀ c ∈ EncodeToString s, c ≠ 10 ∧ c ≠ 13
  | [] => by simp [EncodeToString]
  | [a] => by
    intro c hc
    simp only [EncodeToString, List.mem_cons, List.mem_singleton, List.not_mem_nil, or_false] at hc
    rcases hc with h | h | h | h <;> subst h <;>
      first
        | exact (encChar_ne_special _ (sextet_lt _)).2
        | decide
  | [a, b] => by
    intro c hc
    simp only [EncodeToString, List.mem_cons, List.mem_singleton, List.not_mem_nil, or_false] at hc
    rcases hc with h | h | h | h <;> subst h <;>
      first
        | exact (encChar_ne_special _ (sextet_lt _)).2
        | decide
  | a :: b :: c :: rest => by
    intro x hx
    simp only [EncodeToString, List.mem_cons] at hx
    rcases hx with h | h | h | h | h
    · subst h; exact (encChar_ne_special _ (sextet_lt _)).2
    · subst h; exact (encChar_ne_special _ (sextet_lt _)).2
    · subst h; exact (encChar_ne_special _ (sextet_lt _)).2
    · subst h; exact (encChar_ne_special _ (sextet_lt _)).2
    · exact EncodeToString_no_newline rest x h

theorem DecodeString_EncodeToString (s : GoString) :
    DecodeString (EncodeToString s) = some s := by
  unfold DecodeString
  rw [List.filter_eq_self.mpr]
  · exact decodeQuanta_EncodeToString s
  · intro c hc
    have := EncodeToString_no_newline s c hc
    simp [this.1, this.2]

end Base64

section Durations

theorem digit_val (d : Nat) : (digit d).val = 48 + d % 10 := by
  simp only [digit, toByte]
  omega

theorem utoa_go_append (fuel n : Nat) (acc : GoString) :
    utoa.go fuel n acc = utoa.go fuel n [] ++ acc := by
  induction fuel generalizing n acc with
  | zero => simp [utoa.go]
  | succ f ih =>
    unfold utoa.go
    by_cases h : n < 10
    · simp [h]
    · simp only [h, if_false]
      rw [ih (n / 10) (digit (n % 10) :: acc), ih (n / 10) [digit (n % 10)]]
      simp

theorem utoa_go_head (fuel n : Nat) (acc : GoString) :
    ∃ c t, utoa.go fuel n acc = c :: t ∧ 48 ≤ c.val ∧ c.val ≤ 57 := by
  induction fuel generalizing n acc with
  | zero => exact ⟨digit n, acc, rfl, by rw [digit_val]; omega, by rw [digit_val]; omega⟩
  | succ f ih =>
    unfold utoa.go
    by_cases h : n < 10
    · exact ⟨digit n, acc, by simp [h], by rw [digit_val]; omega, by rw [digit_val]; omega⟩
    · simp only [h, if_false]
      exact ih _ _

theorem leadingInt_go_digit (x d : Nat) (acc : GoString) (hx : x * 10 + d % 10 ≤ 2 ^ 63) :
    leadingInt.go x (digit d :: acc) = leadingInt.go (x * 10 + d % 10) acc := by
  have hv := digit_val d
  rw [leadingInt.go]
  have h1 : ¬ ((digit d).val < 48 ∨ (digit d).val > 57) := by omega
  have h2 : ¬ (x > 2 ^ 63 / 10) := by omega
  have h3 : (x * 10 + (digit d).val - 48) % 2 ^ 64 = x * 10 + d % 10 := by omega
  simp only [h1, h2, if_false, h3]
  have h4 : ¬ (x * 10 + d % 10 > 2 ^ 63) := by omega
  simp only [h4, if_false]

theorem leadingInt_go_utoa (fuel n : Nat) (acc : GoString) (hf : n ≤ fuel) (hn : n ≤ 2 ^ 63) :
    leadingInt.go 0 (utoa.go fuel n acc) = leadingInt.go n acc := by
  induction fuel generalizing n acc with
  | zero =>
    have : n = 0 := by omega
    subst this
    simp only [utoa.go]
    rw [leadingInt_go_digit 0 0 acc (by omega)]
  | succ f ih =>
    unfold utoa.go
    by_cases h : n < 10
    · simp only [h, if_true]
      rw [leadingInt_go_digit 0 n acc (by omega)]
      congr 1
      omega
    · simp only [h, if_false]
      rw [ih (n / 10) _ (by omega) (by omega), leadingInt_go_digit _ _ _ (by omega)]
      congr 1
      omega

theorem unitMap_s : unitMap [115] = some 1000000000 := by decide

theorem loop_seconds (orig : GoString) (fuel : Nat) (c : Byte) (t : GoString) (m : Nat)
    (hlead : leadingInt (c :: t) = some (m, [115])) (hc1 : 48 ≤ c.val) (hc2 : c.val ≤ 57)
    (ht : t ≠ []) (hm : m ≤ 9223372036) :
    ParseDuration.loop orig (fuel + 1) 0 (c :: t) = .ok (m * 1000000000) := by
  rw [ParseDuration.loop]
  have h1 : ¬ ¬ (c.val = 46 ∨ (48 ≤ c.val ∧ c.val ≤ 57)) := by omega
  simp only [h1, if_false, hlead]
  have h115 : ¬ ((115 : Byte).val = 46) := by decide
  have htw : List.takeWhile (fun c : Byte => decide ¬(c.val = 46 ∨ 48 ≤ c.val ∧ c.val ≤ 57))
      [115] = [115] := by decide
  have hlen : (c :: t).length ≠ ([115] : GoString).length := by
    cases t with
    | nil => exact absurd rfl ht
    | cons a b => simp
  have hq : (2 : Nat) ^ 63 / 1000000000 = 9223372036 := by norm_num
  have hmod : m * 1000000000 % 2 ^ 64 = m * 1000000000 := by omega
  simp only [if_neg h115, htw, unitMap_s, hlen, not_true_eq_false, false_and, if_false,
    List.length_singleton, one_ne_zero, gt_iff_lt, lt_self_iff_false, hq, hmod, Nat.zero_add,
    List.drop_succ_cons, List.drop_zero]
  have hlen1 : (c :: t).length ≠ 1 := hlen
  have hpre : ¬ (¬(c :: t).length ≠ 1 ∧ ¬false = true) := fun h => h.1 hlen1
  have h2 : ¬ (9223372036 < m) := by omega
  have h3 : ¬ (2 ^ 63 < m * 1000000000) := by omega
  rw [if_neg hpre, if_neg h2, if_neg h3]
  cases fuel <;> rfl

theorem loop_seconds_overflow (orig : GoString) (fuel : Nat) (c : Byte) (t : GoString) (m : Nat)
    (hlead : leadingInt (c :: t) = some (m, [115])) (hc1 : 48 ≤ c.val) (hc2 : c.val ≤ 57)
    (ht : t ≠ []) (hm : 9223372036 < m) :
    ParseDuration.loop orig (fuel + 1) 0 (c :: t) = .error (errInvalidDuration orig) := by
  rw [ParseDuration.loop]
  have h1 : ¬ ¬ (c.val = 46 ∨ (48 ≤ c.val ∧ c.val ≤ 57)) := by omega
  simp only [h1, if_false, hlead]
  have h115 : ¬ ((115 : Byte).val = 46) := by decide
  have htw : List.takeWhile (fun c : Byte => decide ¬(c.val = 46 ∨ 48 ≤ c.val ∧ c.val ≤ 57))
      [115] = [115] := by decide
  have hlen : (c :: t).length ≠ ([115] : GoString).length := by
    cases t with
    | nil => exact absurd rfl ht
    | cons a b => simp
  have hq : (2 : Nat) ^ 63 / 1000000000 = 9223372036 := by norm_num
  simp only [if_neg h115, htw, unitMap_s, hlen, not_true_eq_false, false_and, if_false,
    List.length_singleton, one_ne_zero, gt_iff_lt, lt_self_iff_false, hq, Nat.zero_add,
    List.drop_succ_cons, List.drop_zero]
  have hlen1 : (c :: t).length ≠ 1 := hlen
  have hpre : ¬ (¬(c :: t).length ≠ 1 ∧ ¬false = true) := fun h => h.1 hlen1
  rw [if_neg hpre, if_pos hm]

theorem sprintfSeconds_shape (n : Int) (h0 : 0 ≤ n) (h1 : n ≤ 2 ^ 63) :
    ∃ c t, sprintfSeconds n = c :: t ∧ 48 ≤ c.val ∧ c.val ≤ 57 ∧ t ≠ [] ∧
      leadingInt (c :: t) = some (n.toNat, [115]) := by
  obtain ⟨c, t, hct, hc1, hc2⟩ := utoa_go_head n.toNat n.toNat []
  have hs : sprintfSeconds n = c :: (t ++ [115]) := by
    have hneg : ¬ n < 0 := by omega
    have hstr : str "s" = [115] := by decide
    simp only [sprintfSeconds, FormatInt, hneg, if_false, utoa, hct, hstr, List.cons_append]
  refine ⟨c, t ++ [115], hs, hc1, hc2, by simp, ?_⟩
  have happ : c :: (t ++ [115]) = utoa.go n.toNat n.toNat [115] := by
    rw [utoa_go_append, hct]
    rfl
  rw [happ, leadingInt, leadingInt_go_utoa _ _ _ (le_refl _) (by omega)]
  rw [leadingInt.go]
  have : ((115 : Byte).val < 48 ∨ (115 : Byte).val > 57) := by decide
  simp only [this, if_true]

theorem ParseDuration_seconds (n : Int) (h0 : 0 < n) (h1 : n ≤ 9223372036) :
    ParseDuration (sprintfSeconds n) = (n * 1000000000, none) := by
  obtain ⟨c, t, hs, hc1, hc2, ht, hlead⟩ := sprintfSeconds_shape n (by omega) (by omega)
  have hloop := loop_seconds (c :: t) t.length c t n.toNat hlead hc1 hc2 ht (by omega)
  have hc45 : ¬ (some c = some (45 : Byte)) := by
    intro h
    have := Option.some.inj h
    subst this
    exact absurd hc1 (by decide)
  have hc43 : ¬ (some c = some (43 : Byte)) := by
    intro h
    have := Option.some.inj h
    subst this
    exact absurd hc1 (by decide)
  have hne0 : ¬ (c :: t = str "0") := by
    intro h
    have hstr : str "0" = [48] := by decide
    rw [hstr] at h
    exact ht (List.cons.inj h).2
  have hbound : ¬ (n.toNat * 1000000000 > 2 ^ 63 - 1) := by omega
  have hcast : ((n.toNat * 1000000000 : Nat) : Int) = n * 1000000000 := by
    push_cast
    rw [Int.toNat_of_nonneg (by omega)]
  rw [hs]
  simp only [ParseDuration, List.head?_cons, hc45, hc43, or_self, if_false, hne0,
    List.length_cons, hloop, decide_False, Bool.false_eq_true]
  rw [if_neg (List.cons_ne_nil c t), if_neg hbound, hcast]

theorem ParseDuration_seconds_overflow (n : Int) (h0 : 9223372036 < n) (h1 : n < 2 ^ 63) :
    ParseDuration (sprintfSeconds n) = (0, some (errInvalidDuration (sprintfSeconds n))) := by
  obtain ⟨c, t, hs, hc1, hc2, ht, hlead⟩ := sprintfSeconds_shape n (by omega) (by omega)
  have hloop := loop_seconds_overflow (c :: t) t.length c t n.toNat hlead hc1 hc2 ht (by omega)
  have hc45 : ¬ (some c = some (45 : Byte)) := by
    intro h
    have := Option.some.inj h
    subst this
    exact absurd hc1 (by decide)
  have hc43 : ¬ (some c = some (43 : Byte)) := by
    intro h
    have := Option.some.inj h
    subst this
    exact absurd hc1 (by decide)
  have hne0 : ¬ (c :: t = str "0") := by
    intro h
    have hstr : str "0" = [48] := by decide
    rw [hstr] at h
    exact ht (List.cons.inj h).2
  rw [hs]
  simp only [ParseDuration, List.head?_cons, hc45, hc43, or_self, if_false, hne0,
    List.length_cons, hloop]
  rw [if_neg (List.cons_ne_nil c t)]

end Durations

section Decimal

theorem foldl_utoa_go (fuel n x : Nat) (acc : GoString) (hf : n ≤ fuel) (hx : n < 10 ∨ x = 0) :
    (utoa.go fuel n acc).foldl (fun acc c =>
      match acc with
      | some x => if 48 ≤ c.val ∧ c.val ≤ 57 then some (x * 10 + (c.val - 48)) else none
      | none => none) (some x)
    = acc.foldl (fun acc c =>
      match acc with
      | some x => if 48 ≤ c.val ∧ c.val ≤ 57 then some (x * 10 + (c.val - 48)) else none
      | none => none) (some (if n < 10 then x * 10 + n else n)) := by
  induction fuel generalizing n x acc with
  | zero =>
    have h0 : n = 0 := by omega
    subst h0
    have hv := digit_val 0
    simp only [utoa.go, List.foldl_cons]
    have hd : 48 ≤ (digit 0).val ∧ (digit 0).val ≤ 57 := by omega
    simp only [hd, and_self, if_true]
    congr 2
  | succ f ih =>
    unfold utoa.go
    by_cases h : n < 10
    · have hv := digit_val n
      have hd : 48 ≤ (digit n).val ∧ (digit n).val ≤ 57 := by omega
      simp only [h, if_true, List.foldl_cons, hd, and_self]
      congr 2
      omega
    · have hx0 : x = 0 := by omega
      subst hx0
      simp only [h, if_false]
      rw [ih (n / 10) 0 _ (by omega) (Or.inr rfl)]
      have hv := digit_val (n % 10)
      have hd : 48 ≤ (digit (n % 10)).val ∧ (digit (n % 10)).val ≤ 57 := by omega
      simp only [List.foldl_cons, hd, and_self, if_true]
      congr 2
      split <;> omega

theorem digitsValue_utoa (n : Nat) : digitsValue (utoa n) = some n := by
  obtain ⟨c, t, hct, _, _⟩ := utoa_go_head n n []
  have hne : utoa n ≠ [] := by
    rw [utoa, hct]
    exact List.cons_ne_nil c t
  rw [digitsValue, if_neg hne, utoa, foldl_utoa_go n n 0 [] (le_refl _) (Or.inr rfl)]
  simp only [List.foldl_nil]
  congr 1
  split <;> omega

theorem decimalValue_FormatInt (i : Int) : decimalValue (FormatInt i) = some i := by
  by_cases h : i < 0
  · simp only [FormatInt, h, if_true, decimalValue, digitsValue_utoa]
    rw [Int.toNat_of_nonneg (by omega)]
    simp
  · obtain ⟨c, t, hct, hc1, _⟩ := utoa_go_head i.toNat i.toNat []
    have hc : c ≠ 45 := by
      intro hc
      subst hc
      exact absurd hc1 (by decide)
    have hu : utoa i.toNat = c :: t := hct
    have hd := digitsValue_utoa i.toNat
    rw [hu] at hd
    simp only [FormatInt, h, if_false, hu, decimalValue, hc, hd]
    rw [Int.toNat_of_nonneg (by omega)]

theorem toInt_of_isInt64 (x : Int) (h : isInt64 x) : toInt x = x := by
  obtain ⟨h1, h2⟩ := h
  simp only [toInt, intSize]
  omega

end Decimal

section Strings

theorem str_colon : str ":" = [colon] := by decide

theorem Index_go_colon (s : GoString) (i : Int) :
    (colon ∈ s → i ≤ Index.go [colon] i s) ∧ (colon ∉ s → Index.go [colon] i s = -1) := by
  induction s generalizing i with
  | nil =>
    refine ⟨fun h => absurd h (List.not_mem_nil _), fun _ => ?_⟩
    simp [Index.go, List.isPrefixOf]
  | cons c t ih =>
    by_cases hc : colon = c
    · subst hc
      refine ⟨fun _ => ?_, fun h => absurd (List.mem_cons_self _ _) h⟩
      simp [Index.go, List.isPrefixOf]
    · have hpre : List.isPrefixOf [colon] (c :: t) = false := by
        simp [List.isPrefixOf, hc]
      have hstep : Index.go [colon] i (c :: t) = Index.go [colon] (i + 1) t := by
        rw [Index.go, hpre]
        simp
      rw [hstep]
      constructor
      · intro h
        have ht : colon ∈ t := by
          rcases List.mem_cons.mp h with h | h
          · exact absurd h hc
          · exact h
        have := (ih (i + 1)).1 ht
        omega
      · intro h
        exact (ih (i + 1)).2 (fun ht => h (List.mem_cons_of_mem _ ht))

theorem Index_colon_iff (s : GoString) : Index s (str ":") > -1 ↔ colon ∈ s := by
  rw [str_colon, Index]
  constructor
  · intro h
    by_contra hn
    rw [(Index_go_colon s 0).2 hn] at h
    exact absurd h (by decide)
  · intro h
    have := (Index_go_colon s 0).1 h
    omega

theorem TrimSpace_stop_blank (s : GoString) (h : ∀ c ∈ s, asciiSpace c = true) :
    TrimSpace.stop s = [] := by
  induction s with
  | nil => rfl
  | cons c t ih =>
    have hc := h c (List.mem_cons_self _ _)
    have hlt : ¬ c.val ≥ 0x80 := by
      simp only [asciiSpace, Bool.decide_or, Bool.or_eq_true, decide_eq_true_eq] at hc
      omega
    rw [TrimSpace.stop, if_neg hlt, if_pos hc]
    exact ih (fun x hx => h x (List.mem_cons_of_mem _ hx))

theorem TrimSpace_blank (s : GoString) (h : ∀ c ∈ s, asciiSpace c = true) :
    TrimSpace s = [] := by
  induction s with
  | nil => rfl
  | cons c t ih =>
    have hc := h c (List.mem_cons_self _ _)
    have hlt : ¬ c.val ≥ 0x80 := by
      simp only [asciiSpace, Bool.decide_or, Bool.or_eq_true, decide_eq_true_eq] at hc
      omega
    rw [TrimSpace, if_neg hlt, if_pos hc]
    exact ih (fun x hx => h x (List.mem_cons_of_mem _ hx))

theorem TrimSpace_stop_ascii (s : GoString) (hascii : ∀ c ∈ s, c.val < 0x80)
    (h : ∃ c ∈ s, asciiSpace c = false) : TrimSpace.stop s ≠ [] := by
  induction s with
  | nil =>
    obtain ⟨c, hc, _⟩ := h
    exact absurd hc (List.not_mem_nil _)
  | cons c t ih =>
    have hlt : ¬ c.val ≥ 0x80 := by
      have := hascii c (List.mem_cons_self _ _)
      omega
    rw [TrimSpace.stop, if_neg hlt]
    by_cases hc : asciiSpace c = true
    · rw [if_pos hc]
      apply ih (fun x hx => hascii x (List.mem_cons_of_mem _ hx))
      obtain ⟨x, hx, hxs⟩ := h
      rcases List.mem_cons.mp hx with hx | hx
      · subst hx
        rw [hc] at hxs
        exact absurd hxs (by decide)
      · exact ⟨x, hx, hxs⟩
    · rw [if_neg hc]
      simp

theorem TrimSpace_ascii (s : GoString) (hascii : ∀ c ∈ s, c.val < 0x80)
    (h : ∃ c ∈ s, asciiSpace c = false) : TrimSpace s ≠ [] := by
  induction s with
  | nil =>
    obtain ⟨c, hc, _⟩ := h
    exact absurd hc (List.not_mem_nil _)
  | cons c t ih =>
    have hlt : ¬ c.val ≥ 0x80 := by
      have := hascii c (List.mem_cons_self _ _)
      omega
    rw [TrimSpace, if_neg hlt]
    by_cases hc : asciiSpace c = true
    · rw [if_pos hc]
      apply ih (fun x hx => hascii x (List.mem_cons_of_mem _ hx))
      obtain ⟨x, hx, hxs⟩ := h
      rcases List.mem_cons.mp hx with hx | hx
      · subst hx
        rw [hc] at hxs
        exact absurd hxs (by decide)
      · exact ⟨x, hx, hxs⟩
    · rw [if_neg hc]
      apply TrimSpace_stop_ascii
      · intro x hx
        exact hascii x (List.mem_reverse.mp hx)
      · exact ⟨c, List.mem_reverse.mpr (List.mem_cons_self _ _), by simpa using hc⟩

end Strings

section Inflation

open ringcentral

theorem Inflate_in_range (now : Int) (rcTok : RcToken)
    (h1 : rcTok.ExpiresIn ≤ 9223372036) (h2 : rcTok.RefreshTokenExpiresIn ≤ 9223372036) :
    RcToken.Inflate now rcTok =
      ({ rcTok with
          Expiry := if rcTok.ExpiresIn > 0 then now + rcTok.ExpiresIn * 1000000000
                    else rcTok.Expiry
          RefreshTokenExpiry :=
            if rcTok.RefreshTokenExpiresIn > 0 then now + rcTok.RefreshTokenExpiresIn * 1000000000
            else rcTok.RefreshTokenExpiry
          inflated := true }, none) := by
  unfold RcToken.Inflate
  by_cases ha : rcTok.ExpiresIn > 0 <;> by_cases hb : rcTok.RefreshTokenExpiresIn > 0
  · simp only [ha, hb, if_true, ParseDuration_seconds _ ha h1, ParseDuration_seconds _ hb h2,
      Time.Add]
  · simp only [ha, hb, if_true, if_false, ParseDuration_seconds _ ha h1, Time.Add]
  · simp only [ha, hb, if_true, if_false, ParseDuration_seconds _ hb h2, Time.Add]
  · simp only [ha, hb, if_false]

theorem Inflate_expiry_overflow (now : Int) (rcTok : RcToken)
    (h1 : 9223372036 < rcTok.ExpiresIn) (h2 : rcTok.ExpiresIn < 2 ^ 63) :
    RcToken.Inflate now rcTok =
      (rcTok, some (errInvalidDuration (sprintfSeconds rcTok.ExpiresIn))) := by
  unfold RcToken.Inflate
  have ha : rcTok.ExpiresIn > 0 := by omega
  simp only [ha, if_true, ParseDuration_seconds_overflow _ h1 h2]

theorem Inflate_refresh_overflow (now : Int) (rcTok : RcToken)
    (h0 : rcTok.ExpiresIn ≤ 9223372036)
    (h1 : 9223372036 < rcTok.RefreshTokenExpiresIn) (h2 : rcTok.RefreshTokenExpiresIn < 2 ^ 63) :
    (RcToken.Inflate now rcTok).2 =
      some (errInvalidDuration (sprintfSeconds rcTok.RefreshTokenExpiresIn)) := by
  unfold RcToken.Inflate
  have hb : rcTok.RefreshTokenExpiresIn > 0 := by omega
  by_cases ha : rcTok.ExpiresIn > 0
  · simp only [ha, hb, if_true, ParseDuration_seconds _ ha h0,
      ParseDuration_seconds_overflow _ h1 h2]
  · simp only [ha, hb, if_true, if_false, ParseDuration_seconds_overflow _ h1 h2]

theorem Inflate_keeps_expiry (now : Int) (rcTok : RcToken)
    (h0 : 0 < rcTok.ExpiresIn) (h1 : rcTok.ExpiresIn ≤ 9223372036) :
    (RcToken.Inflate now rcTok).1.Expiry = now + rcTok.ExpiresIn * 1000000000 ∧
    (RcToken.Inflate now rcTok).1.ExpiresIn = rcTok.ExpiresIn := by
  unfold RcToken.Inflate
  simp only [h0, if_true, ParseDuration_seconds _ h0 h1, Time.Add]
  by_cases hb : rcTok.RefreshTokenExpiresIn > 0
  · simp only [hb, if_true]
    rcases ParseDuration (sprintfSeconds rcTok.RefreshTokenExpiresIn) with ⟨d, _ | err⟩ <;>
      exact ⟨rfl, rfl⟩
  · simp only [hb, if_false]
    exact ⟨trivial, trivial⟩

end Inflation

/-! ## The claims -/

section Claims

open ringcentral

/-- C1. For a user id without a colon and any password, `RFC7617UserPass` returns no
error, and decoding the returned string with the standard Base64 decoder gives back
exactly `userid + ":" + password`. -/
theorem RFC7617UserPass_roundtrip (userid password : GoString) (h : colon ∉ userid) :
    (RFC7617UserPass userid password).2 = none ∧
    DecodeString (RFC7617UserPass userid password).1 = some (userid ++ str ":" ++ password) := by
  have hidx : ¬ (Index userid (str ":") > -1) := fun hi => h ((Index_colon_iff userid).mp hi)
  simp only [RFC7617UserPass, hidx, if_false, Join, DecodeString_EncodeToString, true_and]

/-- C1, at the example of RFC 7617: user id `Aladdin`, password `open sesame`. -/
theorem RFC7617UserPass_roundtrip_witness :
    colon ∉ str "Aladdin" ∧
    (RFC7617UserPass (str "Aladdin") (str "open sesame")).2 = none ∧
    DecodeString (RFC7617UserPass (str "Aladdin") (str "open sesame")).1
      = some (str "Aladdin" ++ str ":" ++ str "open sesame") :=
  ⟨by decide, RFC7617UserPass_roundtrip (str "Aladdin") (str "open sesame") (by decide)⟩

/-- C2. For a user id that contains a colon and any password, `RFC7617UserPass` returns
the empty string with an error, and `BasicAuthToken` returns no token with that error. -/
theorem RFC7617UserPass_colon_error (userid password : GoString) (h : colon ∈ userid) :
    RFC7617UserPass userid password = ([], some (errColon userid)) ∧
    BasicAuthToken userid password = (none, some (errColon userid)) := by
  have hidx : Index userid (str ":") > -1 := (Index_colon_iff userid).mpr h
  have h1 : RFC7617UserPass userid password = ([], some (errColon userid)) := by
    simp only [RFC7617UserPass, hidx, if_true]
  refine ⟨h1, ?_⟩
  simp only [BasicAuthToken, h1]

/-- C2, at the user id `a:b`. -/
theorem RFC7617UserPass_colon_error_witness :
    colon ∈ str "a:b" ∧
    RFC7617UserPass (str "a:b") (str "pw") = ([], some (errColon (str "a:b"))) ∧
    BasicAuthToken (str "a:b") (str "pw") = (none, some (errColon (str "a:b"))) :=
  ⟨by decide, RFC7617UserPass_colon_error (str "a:b") (str "pw") (by decide)⟩

theorem ringcentral_URLValues_form (rc : ringcentral.PasswordCredentials) :
    IsPasswordForm rc.URLValues rc.AccessTokenTTL rc.RefreshTokenTTL rc.Username rc.Extension
      rc.Password rc.EndpointId := by
  unfold IsPasswordForm optionalKeys ringcentral.PasswordCredentials.URLValues
  by_cases h1 : rc.AccessTokenTTL = 0 <;> by_cases h2 : rc.RefreshTokenTTL = 0 <;>
  by_cases h3 : rc.Extension = [] <;> by_cases h4 : rc.EndpointId = [] <;>
  simp +decide [h1, h2, h3, h4, Values.keys, Values.Set, Values.lookup, List.length_pos]

theorem credentials_URLValues_eq (pw : credentials.PasswordCredentials) :
    pw.URLValues = ringcentral.PasswordCredentials.URLValues
      { GrantType := pw.GrantType, AccessTokenTTL := pw.AccessTokenTTL,
        RefreshTokenTTL := pw.RefreshTokenTTL, Username := pw.Username,
        Extension := pw.Extension, Password := pw.Password, EndpointId := pw.EndpointId } :=
  rfl

/-- C3. For every `PasswordCredentials` record, of package `credentials` and of package
`ringcentral`, `URLValues()` holds `grant_type = password` and the record's `username`
and `password`; each of `access_token_ttl`, `refresh_token_ttl`, `extension`,
`endpoint_id` is present exactly when its source field is non-zero or non-empty; there
is no other key. With the four optional fields zero-valued the keys are exactly
`grant_type`, `username`, `password`. -/
theorem URLValues_password_form (pw : credentials.PasswordCredentials)
    (rc : ringcentral.PasswordCredentials) :
    IsPasswordForm pw.URLValues pw.AccessTokenTTL pw.RefreshTokenTTL pw.Username pw.Extension
      pw.Password pw.EndpointId ∧
    IsPasswordForm rc.URLValues rc.AccessTokenTTL rc.RefreshTokenTTL rc.Username rc.Extension
      rc.Password rc.EndpointId ∧
    Values.keys (credentials.PasswordCredentials.URLValues
        { pw with AccessTokenTTL := 0, RefreshTokenTTL := 0, Extension := [], EndpointId := [] })
      = [str "grant_type", str "username", str "password"] ∧
    Values.keys (ringcentral.PasswordCredentials.URLValues
        { rc with AccessTokenTTL := 0, RefreshTokenTTL := 0, Extension := [], EndpointId := [] })
      = [str "grant_type", str "username", str "password"] := by
  refine ⟨?_, ringcentral_URLValues_form rc, rfl, rfl⟩
  rw [credentials_URLValues_eq]
  exact ringcentral_URLValues_form _

theorem ringcentral_access_token_ttl (rc : ringcentral.PasswordCredentials)
    (h1 : rc.AccessTokenTTL ≠ 0) (h2 : isInt64 rc.AccessTokenTTL) :
    Values.lookup rc.URLValues (str "access_token_ttl") = some [FormatInt rc.AccessTokenTTL] := by
  unfold ringcentral.PasswordCredentials.URLValues
  rw [toInt_of_isInt64 _ h2]
  by_cases h2 : rc.RefreshTokenTTL = 0 <;>
  by_cases h3 : rc.Extension = [] <;> by_cases h4 : rc.EndpointId = [] <;>
  simp +decide [h1, h2, h3, h4, Values.Set, Values.lookup, List.length_pos, Itoa]

/-- C9. When `AccessTokenTTL` is a non-zero 64-bit integer, negative or positive,
`URLValues()` maps `access_token_ttl` to exactly one value, the decimal numeral of that
integer (the string `FormatInt` prints, which reads back as the integer). This holds
for the record of package `credentials` and for the one of package `ringcentral`. -/
theorem URLValues_access_token_ttl (pw : credentials.PasswordCredentials)
    (rc : ringcentral.PasswordCredentials)
    (hpw : pw.AccessTokenTTL ≠ 0) (hpw64 : isInt64 pw.AccessTokenTTL)
    (hrc : rc.AccessTokenTTL ≠ 0) (hrc64 : isInt64 rc.AccessTokenTTL) :
    Values.lookup pw.URLValues (str "access_token_ttl") = some [FormatInt pw.AccessTokenTTL] ∧
    decimalValue (FormatInt pw.AccessTokenTTL) = some pw.AccessTokenTTL ∧
    Values.lookup rc.URLValues (str "access_token_ttl") = some [FormatInt rc.AccessTokenTTL] ∧
    decimalValue (FormatInt rc.AccessTokenTTL) = some rc.AccessTokenTTL := by
  refine ⟨?_, decimalValue_FormatInt _, ringcentral_access_token_ttl rc hrc hrc64,
    decimalValue_FormatInt _⟩
  rw [credentials_URLValues_eq]
  exact ringcentral_access_token_ttl _ hpw hpw64

/-- C9, at `AccessTokenTTL = -3600` and `AccessTokenTTL = 9223372036854775807`. -/
theorem URLValues_access_token_ttl_witness :
    Values.lookup (credentials.PasswordCredentials.URLValues
        ⟨[], -3600, 0, str "jdoe", [], str "pw", [], 0⟩) (str "access_token_ttl")
      = some [str "-3600"] ∧
    decimalValue (str "-3600") = some (-3600) ∧
    Values.lookup (ringcentral.PasswordCredentials.URLValues
        ⟨[], 9223372036854775807, 0, str "jdoe", [], str "pw", []⟩) (str "access_token_ttl")
      = some [str "9223372036854775807"] ∧
    decimalValue (str "9223372036854775807") = some 9223372036854775807 :=
  URLValues_access_token_ttl ⟨[], -3600, 0, str "jdoe", [], str "pw", [], 0⟩
    ⟨[], 9223372036854775807, 0, str "jdoe", [], str "pw", []⟩
    (by decide) (by decide) (by decide) (by decide)

/-- C10, refuted as stated: the extension `" "` is not empty, yet both
`UsernameSimple` functions return the bare user name `jdoe`, not `jdoe* `. -/
theorem UsernameSimple_blank_extension :
    str " " ≠ [] ∧
    credentials.PasswordCredentials.UsernameSimple
      ⟨[], 0, 0, str "jdoe", str " ", [], [], 0⟩ = str "jdoe" ∧
    credentials.PasswordCredentials.UsernameSimple
      ⟨[], 0, 0, str "jdoe", str " ", [], [], 0⟩ ≠ str "jdoe" ++ str "*" ++ str " " ∧
    ringcentral.UserCredentials.UsernameSimple ⟨str "jdoe", str " ", []⟩ = str "jdoe" ∧
    ringcentral.UserCredentials.UsernameSimple ⟨str "jdoe", str " ", []⟩
      ≠ str "jdoe" ++ str "*" ++ str " " := by
  decide

/-- C10, amended. `UsernameSimple()` returns `u + "*" + e` when the extension `e` is
not empty after `strings.TrimSpace`, and the bare `u` when it is: for an empty
extension, and for one made of ASCII white space only; an extension of ASCII bytes with
at least one that is not white space is appended. `("jdoe", "42")` gives `jdoe*42` and
`("jdoe", "")` gives `jdoe`. This holds for `credentials.PasswordCredentials` and for
`ringcentral.UserCredentials`. -/
theorem UsernameSimple_trimmed (pw : credentials.PasswordCredentials)
    (uc : ringcentral.UserCredentials) :
    (pw.UsernameSimple =
      if TrimSpace pw.Extension = [] then pw.Username
      else pw.Username ++ str "*" ++ pw.Extension) ∧
    (uc.UsernameSimple =
      if TrimSpace uc.Extension = [] then uc.Username
      else uc.Username ++ str "*" ++ uc.Extension) ∧
    ((∀ c ∈ pw.Extension, asciiSpace c = true) → pw.UsernameSimple = pw.Username) ∧
    ((∀ c ∈ uc.Extension, asciiSpace c = true) → uc.UsernameSimple = uc.Username) ∧
    ((∀ c ∈ pw.Extension, c.val < 0x80) → (∃ c ∈ pw.Extension, asciiSpace c = false) →
      pw.UsernameSimple = pw.Username ++ str "*" ++ pw.Extension) ∧
    ((∀ c ∈ uc.Extension, c.val < 0x80) → (∃ c ∈ uc.Extension, asciiSpace c = false) →
      uc.UsernameSimple = uc.Username ++ str "*" ++ uc.Extension) ∧
    credentials.PasswordCredentials.UsernameSimple
      { pw with Username := str "jdoe", Extension := str "42" } = str "jdoe*42" ∧
    credentials.PasswordCredentials.UsernameSimple
      { pw with Username := str "jdoe", Extension := str "" } = str "jdoe" ∧
    ringcentral.UserCredentials.UsernameSimple
      { uc with Username := str "jdoe", Extension := str "42" } = str "jdoe*42" ∧
    ringcentral.UserCredentials.UsernameSimple
      { uc with Username := str "jdoe", Extension := str "" } = str "jdoe" := by
  have hpw : pw.UsernameSimple =
      if TrimSpace pw.Extension = [] then pw.Username
      else pw.Username ++ str "*" ++ pw.Extension := by
    unfold credentials.PasswordCredentials.UsernameSimple
    by_cases h : TrimSpace pw.Extension = []
    · simp [h]
    · simp [h, Join, List.length_pos]
  have huc : uc.UsernameSimple =
      if TrimSpace uc.Extension = [] then uc.Username
      else uc.Username ++ str "*" ++ uc.Extension := by
    unfold ringcentral.UserCredentials.UsernameSimple
    by_cases h : TrimSpace uc.Extension = []
    · simp [h]
    · simp [h, Join, List.length_pos]
  refine ⟨hpw, huc, ?_, ?_, ?_, ?_, ?_, ?_, ?_, ?_⟩
  · intro h
    rw [hpw, if_pos (TrimSpace_blank _ h)]
  · intro h
    rw [huc, if_pos (TrimSpace_blank _ h)]
  · intro h1 h2
    rw [hpw, if_neg (TrimSpace_ascii _ h1 h2)]
  · intro h1 h2
    rw [huc, if_neg (TrimSpace_ascii _ h1 h2)]
  · have h42 : (TrimSpace (str "42")).length > 0 := by decide
    have hj : Join [str "jdoe", str "42"] (str "*") = str "jdoe*42" := by decide
    simp only [credentials.PasswordCredentials.UsernameSimple, h42, if_true, hj]
  · have h0 : ¬ (TrimSpace (str "")).length > 0 := by decide
    simp only [credentials.PasswordCredentials.UsernameSimple, h0, if_false]
  · have h42 : (TrimSpace (str "42")).length > 0 := by decide
    have hj : Join [str "jdoe", str "42"] (str "*") = str "jdoe*42" := by decide
    simp only [ringcentral.UserCredentials.UsernameSimple, h42, if_true, hj]
  · have h0 : ¬ (TrimSpace (str "")).length > 0 := by decide
    simp only [ringcentral.UserCredentials.UsernameSimple, h0, if_false]

set_option maxRecDepth 8192 in
/-- C10 amended, at a blank extension and at one with white space around digits. -/
theorem UsernameSimple_trimmed_witness :
    credentials.PasswordCredentials.UsernameSimple
      ⟨[], 0, 0, str "jdoe", str " \t", [], [], 0⟩ = str "jdoe" ∧
    ringcentral.UserCredentials.UsernameSimple ⟨str "jdoe", str " 42 ", []⟩
      = str "jdoe" ++ str "*" ++ str " 42 " :=
  ⟨(UsernameSimple_trimmed ⟨[], 0, 0, str "jdoe", str " \t", [], [], 0⟩
      ⟨str "jdoe", str " 42 ", []⟩).2.2.1 (by decide),
   (UsernameSimple_trimmed ⟨[], 0, 0, str "jdoe", str " \t", [], [], 0⟩
      ⟨str "jdoe", str " 42 ", []⟩).2.2.2.2.2.1 (by decide) (by decide)⟩

/-- C4. With `expires_in` and `refresh_token_expires_in` at most 9223372036 seconds, the
most a duration holds, `RcToken.Inflate` at clock reading `now` returns no error and
changes the record in three places only: `Expiry` becomes `now` plus `expires_in`
seconds when `expires_in > 0` and stays as it was otherwise, `RefreshTokenExpiry`
likewise from `refresh_token_expires_in`, and the record is marked inflated. -/
theorem Inflate_sets_expiry (now : Int) (rcTok : RcToken)
    (h1 : rcTok.ExpiresIn ≤ 9223372036) (h2 : rcTok.RefreshTokenExpiresIn ≤ 9223372036) :
    RcToken.Inflate now rcTok =
      ({ rcTok with
          Expiry := if rcTok.ExpiresIn > 0 then now + rcTok.ExpiresIn * 1000000000
                    else rcTok.Expiry
          RefreshTokenExpiry :=
            if rcTok.RefreshTokenExpiresIn > 0 then now + rcTok.RefreshTokenExpiresIn * 1000000000
            else rcTok.RefreshTokenExpiry
          inflated := true }, none) :=
  Inflate_in_range now rcTok h1 h2

/-- C4, at `expires_in = 3600`, no refresh lifetime, and the clock at 1000 ns. -/
theorem Inflate_sets_expiry_witness :
    (exampleToken 3600).ExpiresIn ≤ 9223372036 ∧
    (exampleToken 3600).RefreshTokenExpiresIn ≤ 9223372036 ∧
    RcToken.Inflate 1000 (exampleToken 3600) =
      ({ exampleToken 3600 with Expiry := 3600000001000, inflated := true }, none) :=
  ⟨by decide, by decide, Inflate_sets_expiry 1000 (exampleToken 3600) (by decide) (by decide)⟩

/-- C7, refuted as stated: with `expires_in = 9223372037`, a positive 64-bit integer,
inflating at clock reading 0 and again at 5 leaves `Expiry` at the zero time, not at
5 ns plus 9223372037 seconds; both calls return an error. -/
theorem Inflate_overflow_leaves_expiry_unset :
    0 < (exampleToken 9223372037).ExpiresIn ∧ isInt64 (exampleToken 9223372037).ExpiresIn ∧
    (RcToken.Inflate 5 (RcToken.Inflate 0 (exampleToken 9223372037)).1).1.Expiry = 0 ∧
    (RcToken.Inflate 5 (RcToken.Inflate 0 (exampleToken 9223372037)).1).1.Expiry
      ≠ 5 + 9223372037 * 1000000000 ∧
    (RcToken.Inflate 0 (exampleToken 9223372037)).2 ≠ none := by
  decide

/-- C7, amended. For `expires_in = N` with `0 < N ≤ 9223372036` and any two clock
readings `t1`, `t2`: after `Inflate` at `t1` and again at `t2`, `Expiry` is `t2` plus
`N` seconds; it is later than the `Expiry` of the first call by exactly `t2 - t1`, and
the two are equal only when `t1 = t2`. -/
theorem Inflate_twice (t1 t2 : Int) (rcTok : RcToken)
    (h0 : 0 < rcTok.ExpiresIn) (h1 : rcTok.ExpiresIn ≤ 9223372036) :
    (RcToken.Inflate t2 (RcToken.Inflate t1 rcTok).1).1.Expiry
      = t2 + rcTok.ExpiresIn * 1000000000 ∧
    (RcToken.Inflate t2 (RcToken.Inflate t1 rcTok).1).1.Expiry
      - (RcToken.Inflate t1 rcTok).1.Expiry = t2 - t1 ∧
    ((RcToken.Inflate t2 (RcToken.Inflate t1 rcTok).1).1.Expiry
      = (RcToken.Inflate t1 rcTok).1.Expiry ↔ t1 = t2) := by
  obtain ⟨e1, k1⟩ := Inflate_keeps_expiry t1 rcTok h0 h1
  obtain ⟨e2, _⟩ := Inflate_keeps_expiry t2 (RcToken.Inflate t1 rcTok).1
    (by rw [k1]; exact h0) (by rw [k1]; exact h1)
  rw [k1] at e2
  rw [e2, e1]
  refine ⟨rfl, by omega, ?_⟩
  constructor <;> intro h <;> omega

/-- C7 amended, at `expires_in = 3600` and clock readings 1000 and 6000. -/
theorem Inflate_twice_witness :
    0 < (exampleToken 3600).ExpiresIn ∧ (exampleToken 3600).ExpiresIn ≤ 9223372036 ∧
    (RcToken.Inflate 6000 (RcToken.Inflate 1000 (exampleToken 3600)).1).1.Expiry
      = 6000 + (exampleToken 3600).ExpiresIn * 1000000000 ∧
    (RcToken.Inflate 6000 (RcToken.Inflate 1000 (exampleToken 3600)).1).1.Expiry
      - (RcToken.Inflate 1000 (exampleToken 3600)).1.Expiry = 6000 - 1000 ∧
    ((RcToken.Inflate 6000 (RcToken.Inflate 1000 (exampleToken 3600)).1).1.Expiry
      = (RcToken.Inflate 1000 (exampleToken 3600)).1.Expiry ↔ (1000 : Int) = 6000) :=
  ⟨by decide, by decide, Inflate_twice 1000 6000 (exampleToken 3600) (by decide) (by decide)⟩

/-- C8, refuted as stated: `expires_in = 9223372037` is a non-negative 64-bit integer,
and `Inflate` returns the error of `time.ParseDuration("9223372037s")`. -/
theorem Inflate_error_reachable :
    0 ≤ (exampleToken 9223372037).ExpiresIn ∧ isInt64 (exampleToken 9223372037).ExpiresIn ∧
    0 ≤ (exampleToken 9223372037).RefreshTokenExpiresIn ∧
    isInt64 (exampleToken 9223372037).RefreshTokenExpiresIn ∧
    (RcToken.Inflate 0 (exampleToken 9223372037)).2
      = some ⟨str "time: invalid duration \"9223372037s\""⟩ := by
  decide

/-- C8, amended. For 64-bit `expires_in` and `refresh_token_expires_in`, `Inflate`
returns no error exactly when both are at most 9223372036, the largest whole number of
seconds a duration holds; so it returns none for every non-negative value up to that
bound, and the duration-parsing error is returned for every larger one. -/
theorem Inflate_no_error_iff (now : Int) (rcTok : RcToken)
    (h1 : isInt64 rcTok.ExpiresIn) (h2 : isInt64 rcTok.RefreshTokenExpiresIn) :
    (RcToken.Inflate now rcTok).2 = none ↔
      rcTok.ExpiresIn ≤ 9223372036 ∧ rcTok.RefreshTokenExpiresIn ≤ 9223372036 := by
  constructor
  · intro h
    by_contra hn
    by_cases ha : rcTok.ExpiresIn ≤ 9223372036
    · have hb : 9223372036 < rcTok.RefreshTokenExpiresIn := by
        by_contra hb
        exact hn ⟨ha, by omega⟩
      rw [Inflate_refresh_overflow now rcTok ha hb h2.2] at h
      exact absurd h (by simp)
    · rw [Inflate_expiry_overflow now rcTok (by omega) h1.2] at h
      exact absurd h (by simp)
  · intro h
    rw [Inflate_in_range now rcTok h.1 h.2]

/-- C8 amended, at `expires_in = 9223372036` and no refresh lifetime. -/
theorem Inflate_no_error_iff_witness :
    isInt64 (exampleToken 9223372036).ExpiresIn ∧
    isInt64 (exampleToken 9223372036).RefreshTokenExpiresIn ∧
    (RcToken.Inflate 0 (exampleToken 9223372036)).2 = none :=
  ⟨by decide, by decide,
   (Inflate_no_error_iff 0 (exampleToken 9223372036) (by decide) (by decide)).mpr
     ⟨by decide, by decide⟩⟩

theorem RetrieveRcToken_of_response (env : Env) (cfg : Config) (params : Values) (now : Int)
    (resp : Response)
    (hreq : env.NewRequestErr cfg.TokenURL = none)
    (hauth : (env.BasicAuthHeader cfg.ClientID cfg.ClientSecret).2 = none)
    (hdo : Client.Do env (tokenRequest env cfg params) = .ok resp) :
    RetrieveRcToken env now cfg params =
      if resp.StatusCode ≥ 300 then (none, some (errStatus resp.StatusCode))
      else
        match env.UnmarshalIoReader resp.Body with
        | (_, some err) => (none, some err)
        | (rcToken, none) => (some (RcToken.Inflate now rcToken).1, (RcToken.Inflate now rcToken).2) := by
  unfold RetrieveRcToken
  rw [hreq]
  rcases hb : env.BasicAuthHeader cfg.ClientID cfg.ClientSecret with ⟨hdr, e⟩
  rw [hb] at hauth
  simp only at hauth
  subst hauth
  simp only [hdo]

/-- C5, refuted as stated: on a record that is not marked inflated and has
`expires_in = 9223372037`, `OAuth2Token()` runs `Inflate`, which fails, and returns the
error and no token. -/
theorem OAuth2Token_no_token :
    (exampleToken 9223372037).inflated = false ∧
    RcToken.OAuth2Token 0 (exampleToken 9223372037) =
      (exampleToken 9223372037, none,
        some ⟨str "time: invalid duration \"9223372037s\""⟩) := by
  decide

/-- C5, amended. `OAuth2Token()` calls `Inflate` exactly when the record is not marked
inflated; when that step returns no error, its token carries the `AccessToken`,
`TokenType`, `RefreshToken` and `Expiry` the record has after the step, and when
`Inflate` fails it returns that error and no token. In `RetrieveToken`, a response with
a status below 300
whose body parses to a record with lifetimes in the range of a duration is inflated
once, at the clock reading `now` inside `RetrieveRcToken`: the record comes back marked
inflated, and the token is the record's access token, token type and refresh token with
`Expiry = now + expires_in` seconds (for `expires_in > 0`), whatever reading `now2` the
clock has when `OAuth2Token` is called. -/
theorem RetrieveToken_inflates_once (env : Env) (cfg : Config) (params : Values)
    (now now2 t : Int) (resp : Response) (parsed rcTok : RcToken)
    (hreq : env.NewRequestErr cfg.TokenURL = none)
    (hauth : (env.BasicAuthHeader cfg.ClientID cfg.ClientSecret).2 = none)
    (hdo : Client.Do env (tokenRequest env cfg params) = .ok resp)
    (hstatus : resp.StatusCode < 300)
    (hparse : env.UnmarshalIoReader resp.Body = (parsed, none))
    (h2 : parsed.ExpiresIn ≤ 9223372036)
    (h3 : parsed.RefreshTokenExpiresIn ≤ 9223372036) :
    (RcToken.OAuth2Token t rcTok =
      if rcTok.inflated = true then
        (rcTok, some { AccessToken := rcTok.AccessToken, TokenType := rcTok.TokenType,
                       RefreshToken := rcTok.RefreshToken, Expiry := rcTok.Expiry }, none)
      else
        match RcToken.Inflate t rcTok with
        | (r, some err) => (r, none, some err)
        | (r, none) =>
          (r, some { AccessToken := r.AccessToken, TokenType := r.TokenType,
                     RefreshToken := r.RefreshToken, Expiry := r.Expiry }, none)) ∧
    (∃ r, RetrieveRcToken env now cfg params = (some r, none) ∧ r.inflated = true ∧
      r.Expiry = (if parsed.ExpiresIn > 0 then now + parsed.ExpiresIn * 1000000000
                  else parsed.Expiry)) ∧
    RetrieveToken env now now2 cfg params =
      (some { AccessToken := parsed.AccessToken, TokenType := parsed.TokenType,
              RefreshToken := parsed.RefreshToken,
              Expiry := if parsed.ExpiresIn > 0 then now + parsed.ExpiresIn * 1000000000
                        else parsed.Expiry }, none) := by
  have hrc := RetrieveRcToken_of_response env cfg params now resp hreq hauth hdo
  have hst : ¬ resp.StatusCode ≥ 300 := by omega
  rw [if_neg hst, hparse] at hrc
  simp only [Inflate_in_range now parsed h2 h3] at hrc
  refine ⟨?_, ⟨_, hrc, rfl, rfl⟩, ?_⟩
  · unfold RcToken.OAuth2Token
    by_cases hi : rcTok.inflated = true
    · simp only [hi, not_true_eq_false, if_false, if_true]
    · simp only [hi, not_false_eq_true, if_true, if_false]
      rcases RcToken.Inflate t rcTok with ⟨r, _ | err⟩ <;> rfl
  · simp only [RetrieveToken, hrc, RcToken.OAuth2Token, not_true_eq_false, if_false]

/-- C5, the example of the spec: the endpoint answers 200 with the access token `abc`,
the type `Bearer` and `expires_in = 120`; the response is handled at clock reading
1000 and `OAuth2Token` runs at 999000. The token expires at 1000 ns plus 120 seconds. -/
theorem RetrieveToken_inflates_once_witness :
    RetrieveToken (exampleEnv ⟨200, [], []⟩ (exampleToken 120)) 1000 999000 exampleConfig []
      = (some { AccessToken := str "abc", TokenType := str "Bearer", RefreshToken := [],
                Expiry := 120000001000 }, none) :=
  (RetrieveToken_inflates_once (exampleEnv ⟨200, [], []⟩ (exampleToken 120)) exampleConfig []
    1000 999000 0 ⟨200, [], []⟩ (exampleToken 120) (exampleToken 120)
    rfl rfl rfl (by decide) rfl (by decide) (by decide)).2.2

theorem Do_of_not_followed (env : Env) (req : Request) (resp : Response)
    (hsend : env.RoundTrip req = .ok resp) (hnf : ¬ followed resp) :
    Client.Do env req = .ok resp := by
  unfold Client.Do Client.Do.loop
  simp only [hsend]
  by_cases hb : (redirectBehavior req.Method resp).2.1 = false
  · simp only [hb, if_true]
  · have hloc : resp.Location = [] := by
      by_contra hl
      apply hnf
      refine ⟨?_, hl⟩
      unfold redirectBehavior at hb
      by_cases h1 : resp.StatusCode = 301 ∨ resp.StatusCode = 302 ∨ resp.StatusCode = 303
      · rcases h1 with h | h | h
        · exact Or.inl h
        · exact Or.inr (Or.inl h)
        · exact Or.inr (Or.inr (Or.inl h))
      · by_cases h2 : resp.StatusCode = 307 ∨ resp.StatusCode = 308
        · rcases h2 with h | h
          · exact Or.inr (Or.inr (Or.inr (Or.inl h)))
          · exact Or.inr (Or.inr (Or.inr (Or.inr h)))
        · simp [h1, h2] at hb
    rw [if_neg hb, if_pos hloc]

theorem errStatus_injective (a b : Int) (h : errStatus a = errStatus b) : a = b := by
  have hmsg : (errStatus a).msg = (errStatus b).msg := by rw [h]
  simp only [errStatus] at hmsg
  have h1 := List.append_cancel_right hmsg
  have h2 := List.append_cancel_left h1
  have ha := decimalValue_FormatInt a
  rw [h2, decimalValue_FormatInt b] at ha
  exact (Option.some.inj ha).symm

/-- C6, refuted as stated: the token endpoint answers the token request with the
status code 302 and a `Location` header; the HTTP client follows the redirect, the
next response is 200, and `RetrieveRcToken` and `RetrieveToken` return a token and no
error. -/
theorem RetrieveRcToken_follows_redirect :
    (redirectEnv (exampleToken 120)).RoundTrip
        (tokenRequest (redirectEnv (exampleToken 120)) exampleConfig [])
      = .ok { StatusCode := 302, Location := str "https://example.com/token2", Body := [] } ∧
    RetrieveRcToken (redirectEnv (exampleToken 120)) 1000 exampleConfig []
      = (some { exampleToken 120 with Expiry := 120000001000, inflated := true }, none) ∧
    RetrieveToken (redirectEnv (exampleToken 120)) 1000 2000 exampleConfig []
      = (some { AccessToken := str "abc", TokenType := str "Bearer", RefreshToken := [],
                Expiry := 120000001000 }, none) := by
  refine ⟨?_, ?_, ?_⟩
  · rfl
  · decide
  · decide

/-- C6, amended. Let `resp` be the response `http.Client.Do` hands back for the token
request: the response of the token endpoint itself unless that is a 301, 302, 303, 307
or 308 with a `Location` header, which the client follows. When its status code is 300
or more, `RetrieveRcToken` and `RetrieveToken` return no token and the error whose
message is `RingCentral API Response Status [` code `]` with the code in decimal,
whatever the body is and however it would parse; the code reads back from the message,
and two codes never give the same error. With a status code below 300 the result is
the one of parsing the body and inflating the record, so the status error is not
produced. -/
theorem RetrieveRcToken_status_error (env : Env) (cfg : Config) (params : Values)
    (now now2 : Int) (resp : Response)
    (hreq : env.NewRequestErr cfg.TokenURL = none)
    (hauth : (env.BasicAuthHeader cfg.ClientID cfg.ClientSecret).2 = none)
    (hdo : Client.Do env (tokenRequest env cfg params) = .ok resp) :
    (RetrieveRcToken env now cfg params =
      if resp.StatusCode ≥ 300 then
        (none, some ⟨str "RingCentral API Response Status [" ++ FormatInt resp.StatusCode
          ++ str "]"⟩)
      else
        match env.UnmarshalIoReader resp.Body with
        | (_, some err) => (none, some err)
        | (rcToken, none) =>
          (some (RcToken.Inflate now rcToken).1, (RcToken.Inflate now rcToken).2)) ∧
    (RetrieveToken env now now2 cfg params =
      if resp.StatusCode ≥ 300 then
        (none, some ⟨str "RingCentral API Response Status [" ++ FormatInt resp.StatusCode
          ++ str "]"⟩)
      else
        match env.UnmarshalIoReader resp.Body with
        | (_, some err) => (none, some err)
        | (rcToken, none) =>
          match RcToken.Inflate now rcToken with
          | (_, some err) => (none, some err)
          | (r, none) => (RcToken.OAuth2Token now2 r).2) ∧
    decimalValue (FormatInt resp.StatusCode) = some resp.StatusCode ∧
    (∀ code : Int, errStatus code = errStatus resp.StatusCode → code = resp.StatusCode) ∧
    (∀ first : Response, env.RoundTrip (tokenRequest env cfg params) = .ok first →
      ¬ followed first → first = resp) := by
  have hrc := RetrieveRcToken_of_response env cfg params now resp hreq hauth hdo
  have hrc2 : RetrieveRcToken env now cfg params =
      if resp.StatusCode ≥ 300 then
        (none, some ⟨str "RingCentral API Response Status [" ++ FormatInt resp.StatusCode
          ++ str "]"⟩)
      else
        match env.UnmarshalIoReader resp.Body with
        | (_, some err) => (none, some err)
        | (rcToken, none) =>
          (some (RcToken.Inflate now rcToken).1, (RcToken.Inflate now rcToken).2) := by
    rw [hrc]
    rfl
  refine ⟨hrc2, ?_, decimalValue_FormatInt _, fun code h => errStatus_injective _ _ h, ?_⟩
  · unfold RetrieveToken
    rw [hrc2]
    by_cases hst : resp.StatusCode ≥ 300
    · simp only [hst, if_true]
    · simp only [hst, if_false]
      rcases env.UnmarshalIoReader resp.Body with ⟨tok, _ | err⟩
      · simp only
        rcases RcToken.Inflate now tok with ⟨r, _ | err⟩ <;> rfl
      · rfl
  · intro first hsend hnf
    have := Do_of_not_followed env _ first hsend hnf
    rw [hdo] at this
    exact (Except.ok.inj this).symm

/-- C6 amended, at a token endpoint that answers 401. -/
theorem RetrieveRcToken_status_error_witness :
    Client.Do (exampleEnv ⟨401, [], str "unauthorized"⟩ (exampleToken 120))
        (tokenRequest (exampleEnv ⟨401, [], str "unauthorized"⟩ (exampleToken 120))
          exampleConfig [])
      = .ok ⟨401, [], str "unauthorized"⟩ ∧
    RetrieveRcToken (exampleEnv ⟨401, [], str "unauthorized"⟩ (exampleToken 120)) 1000
        exampleConfig []
      = (none, some ⟨str "RingCentral API Response Status [401]"⟩) ∧
    RetrieveToken (exampleEnv ⟨401, [], str "unauthorized"⟩ (exampleToken 120)) 1000 2000
        exampleConfig []
      = (none, some ⟨str "RingCentral API Response Status [401]"⟩) :=
  ⟨rfl,
   (RetrieveRcToken_status_error (exampleEnv ⟨401, [], str "unauthorized"⟩ (exampleToken 120))
      exampleConfig [] 1000 2000 ⟨401, [], str "unauthorized"⟩ rfl rfl rfl).1,
   (RetrieveRcToken_status_error (exampleEnv ⟨401, [], str "unauthorized"⟩ (exampleToken 120))
      exampleConfig [] 1000 2000 ⟨401, [], str "unauthorized"⟩ rfl rfl rfl).2.1⟩

end Claims
